import Mathlib

/-!
# QHotkey Linux backend (qhotkey_linux.cpp)

A shallow embedding of `QHotkeyPrivateLinux`: the direct-grab (X11) registration burst with
its scoped error interceptor, the raw key event filter with its 50 ms release debounce, and
the broker (KGlobalAccel) registration path.

Machine integers (`quint32`, `uint16_t`, `uint8_t`) are natural numbers; the only arithmetic
the code performs on them is bitwise `|` and `&`, which never leave the operand width.
Everything the code obtains from Xlib, Qt or the KGlobalAccel service is an input of the
model: the error events a display delivers at each `XSync`, the text of `XGetErrorText`,
`QKeySequence::toString`, the broker's availability answer and its action enumeration.

Two small units follow the backend: the accumulator `Calculator` of udcpptools.cpp, whose
`int` arithmetic wraps modulo 2^32, and the OS version predicates of UDFrameless.cpp.
-/

namespace QHotkeyLinux

/-! ## Constants of the X11 core protocol (X11/X.h, xcb/xproto.h) and of Qt (qnamespace.h) -/

def ShiftMask : Nat := 1
def LockMask : Nat := 2
def ControlMask : Nat := 4
def Mod1Mask : Nat := 8
def Mod2Mask : Nat := 16
def Mod4Mask : Nat := 64

def BadValue : Nat := 2
def BadWindow : Nat := 3
def BadAccess : Nat := 10

def XCB_KEY_PRESS : Nat := 2
def XCB_KEY_RELEASE : Nat := 3

def ShiftModifier : Nat := 0x02000000
def ControlModifier : Nat := 0x04000000
def AltModifier : Nat := 0x08000000
def MetaModifier : Nat := 0x10000000

/-! ## Data model -/

/-- The pair `QHotkey::NativeShortcut`: native keycode and native modifier mask. -/
structure NativeShortcut where
  key : Nat
  modifier : Nat
  deriving DecidableEq, Repr

/-- The fields of `XErrorEvent` that `handleError` reads. -/
structure XErrorEvent where
  error_code : Nat
  request_code : Nat
  deriving DecidableEq, Repr

/-- The process-wide Xlib error handler slot holds either the interceptor
`HotkeyErrorHandler::handleError` or some other handler, named by a number. -/
inductive XErrorHandler where
  | hotkey
  | other (id : Nat)
  deriving DecidableEq, Repr

/-- Requests the backend sends to the display. Grabs and ungrabs always target the root
window; a grab always passes `True, GrabModeAsync, GrabModeAsync`. -/
inductive XRequest where
  | grabKey (key modifiers : Nat)
  | ungrabKey (key modifiers : Nat)
  | sync
  deriving DecidableEq, Repr

/-- The fields of `xcb_key_press_event_t` (the same struct serves releases) that the event
filter reads. -/
structure KeyEvent where
  response_type : Nat
  detail : Nat
  time : Nat
  state : Nat
  deriving DecidableEq, Repr

/-- Calls of `activateShortcut` and `releaseShortcut` made by the backend. -/
inductive Notification where
  | activate (s : NativeShortcut)
  | release (s : NativeShortcut)
  deriving DecidableEq, Repr

abbrev QKeySequence := List Nat

/-- The state of a `QAction` that the backend sets. -/
structure QAction where
  componentName : String := ""
  componentDisplayName : String := ""
  objectName : String := ""
  text : String := ""
  shortcuts : List QKeySequence := []
  deriving DecidableEq, Repr

/-- One entry of the broker's enumeration `allShortcutInfos`. -/
structure KGlobalShortcutInfo where
  uniqueName : String
  friendlyName : String
  keys : List QKeySequence
  deriving DecidableEq, Repr

/-- Calls made on `KGlobalAccel::self()` that change the broker. -/
inductive BrokerCall where
  | setShortcutAutoloading (action : String) (keys : List QKeySequence)
  | setGlobalShortcut (action : String) (keys : List QKeySequence)
  | removeAllShortcuts (action : String)
  deriving DecidableEq, Repr

/-- The `Shortcut` pair of an identifier and a variant map; the map holds strings only. -/
abbrev Shortcut := String × List (String × String)

/-- What the code reads from Xlib, Qt and the broker service during one call. -/
structure Env where
  XGetErrorText : Nat → String
  keySequenceToString : QKeySequence → String
  toLower : String → String
  toUpper : String → String
  applicationName : String
  organizationDomain : String
  applicationFilePath : String
  isGlobalShortcutAvailable : QKeySequence → Bool
  allShortcutInfos : List KGlobalShortcutInfo
  xdgParse : String → Option QKeySequence

/-- The mutable state of `QHotkeyPrivateLinux`, the statics of `HotkeyErrorHandler`, the
Xlib handler slot, and the traffic with the display and the broker. `xReplies` lists, for
each coming `XSync`, the error events the display delivers at it. -/
structure Backend where
  isX11 : Bool
  isWayland : Bool
  display : Bool
  x11Interface : Bool
  error : String
  hasError : Bool
  errorString : String
  xErrorHandler : XErrorHandler
  xRequests : List XRequest
  xReplies : List (List XErrorEvent)
  prevHandledEvent : KeyEvent
  prevEvent : KeyEvent
  m_registerdShortcutMapping : List (String × NativeShortcut)
  m_shortcuts : List (String × QAction)
  brokerCalls : List BrokerCall
  deriving DecidableEq, Repr

/-! ## Direct-grab path -/

def specialModifiers : List Nat := [0, Mod2Mask, LockMask, Mod2Mask ||| LockMask]

def validModsMask : Nat := ShiftMask ||| ControlMask ||| Mod1Mask ||| Mod4Mask

/-- The test of `handleError`: an error of kind BadAccess, BadValue or BadWindow raised by
request 33 (grab key) or 34 (ungrab key). -/
def classified (e : XErrorEvent) : Bool :=
  (e.error_code == BadAccess || e.error_code == BadValue || e.error_code == BadWindow)
    && (e.request_code == 33 || e.request_code == 34)

def formatX11Error (env : Env) (errorCode : Nat) : String :=
  env.XGetErrorText errorCode

/-- The interceptor `HotkeyErrorHandler::handleError`, with its return value. -/
def handleError (env : Env) (st : Backend) (e : XErrorEvent) : Backend × Nat :=
  if classified e then
    ({ st with hasError := true, errorString := formatX11Error env e.error_code }, 1)
  else
    (st, 0)

/-- Xlib hands an error event to the installed handler; a foreign handler does not touch
the backend. -/
def dispatchError (env : Env) (st : Backend) (e : XErrorEvent) : Backend :=
  match st.xErrorHandler with
  | .hotkey => (handleError env st e).1
  | .other _ => st

/-- The call `XSync(display, False)`: the request is logged and the error events of this
round trip reach the installed handler in order. -/
def xSync (env : Env) (st : Backend) : Backend :=
  let st1 := { st with xRequests := st.xRequests ++ [XRequest.sync], xReplies := st.xReplies.tail }
  (st.xReplies.headD []).foldl (dispatchError env) st1

def xRequest (st : Backend) (r : XRequest) : Backend :=
  { st with xRequests := st.xRequests ++ [r] }

/-- Constructor of `HotkeyErrorHandler`: installs `handleError`, keeps the old handler. -/
def errorHandlerInstall (st : Backend) : Backend × XErrorHandler :=
  ({ st with xErrorHandler := XErrorHandler.hotkey }, st.xErrorHandler)

/-- Destructor of `HotkeyErrorHandler`. -/
def errorHandlerRestore (st : Backend) (prevHandler : XErrorHandler) : Backend :=
  { st with xErrorHandler := prevHandler, hasError := false, errorString := "" }

/-- The loop of `XUngrabKey` calls followed by `XSync` in `unregisterShortcut`. -/
def ungrabBurst (env : Env) (st : Backend) (shortcut : NativeShortcut) : Backend :=
  xSync env (specialModifiers.foldl
    (fun acc specialMod => xRequest acc (XRequest.ungrabKey shortcut.key (shortcut.modifier ||| specialMod)))
    st)

/-- The loop of `XGrabKey` calls followed by `XSync` in `registerShortcut`. -/
def grabBurst (env : Env) (st : Backend) (shortcut : NativeShortcut) : Backend :=
  xSync env (specialModifiers.foldl
    (fun acc specialMod => xRequest acc (XRequest.grabKey shortcut.key (shortcut.modifier ||| specialMod)))
    st)

/-- The recorded-error flag after the interceptor has seen the events in order. -/
def flagAfter (flag : Bool) (errs : List XErrorEvent) : Bool :=
  errs.foldl (fun h e => h || classified e) flag

/-- The recorded text after the interceptor has seen the events in order. -/
def textAfter (env : Env) (text : String) (errs : List XErrorEvent) : String :=
  errs.foldl (fun t e => if classified e then formatX11Error env e.error_code else t) text

/-! ## Broker path -/

def m_token (env : Env) : String :=
  "/org/lingmoui/ShortcutService/" ++ env.applicationFilePath

def m_appId (env : Env) : String :=
  "org.lingmoui.ShortcutService.ThirdParty." ++ env.organizationDomain ++ env.applicationName

def componentName (env : Env) : String :=
  m_appId env ++ m_token env

def getShorctIdentifier (env : Env) (shorctStr : String) : String :=
  m_appId env ++ "." ++ env.toLower shorctStr

/-- Lookup in a `std::unordered_map` or `QHash`, kept as an association list. -/
def mapFind {β : Type} (m : List (String × β)) (k : String) : Option β :=
  m.lookup k

/-- The call `std::unordered_map::insert`: an existing key keeps its value. -/
def mapInsert {β : Type} (m : List (String × β)) (k : String) (v : β) : List (String × β) :=
  match mapFind m k with
  | some _ => m
  | none => m ++ [(k, v)]

/-- Assignment through `operator[]`: the value under the key is replaced or created. -/
def mapSet {β : Type} (m : List (String × β)) (k : String) (v : β) : List (String × β) :=
  match m with
  | [] => [(k, v)]
  | (k1, v1) :: rest => if k1 == k then (k, v) :: rest else (k1, v1) :: mapSet rest k v

def mapErase {β : Type} (m : List (String × β)) (k : String) : List (String × β) :=
  m.filter (fun p => !(p.1 == k))

/-- Reading `map[key].toString()` on the variant map: a missing key reads as empty. -/
def variantString (m : List (String × String)) (k : String) : String :=
  (m.lookup k).getD ""

/-- The hash `shortcutInfosByName`: a later enumeration entry overwrites an earlier one of
the same unique name. -/
def shortcutInfosByName (infos : List KGlobalShortcutInfo) : List (String × KGlobalShortcutInfo) :=
  infos.foldl (fun h info => mapSet h info.uniqueName info) []

/-- Qt 6 `QAction::setShortcut`. -/
def QAction.setShortcut (a : QAction) (k : QKeySequence) : QAction :=
  if k.isEmpty then { a with shortcuts := [] } else { a with shortcuts := [k] }

/-- The body of the loop of `setActionsInAccel` for one shortcut. -/
def setActionInAccel (env : Env) (acc : Backend × List (String × KGlobalShortcutInfo))
    (shortcut : Shortcut) : Backend × List (String × KGlobalShortcutInfo) :=
  let st := acc.1
  let byName := acc.2
  let description := variantString shortcut.2 "description"
  if description.isEmpty || shortcut.1.isEmpty then
    acc
  else
    let a0 : QAction := (mapFind st.m_shortcuts shortcut.1).getD {}
    let a1 : QAction := { a0 with
      componentName := componentName env,
      componentDisplayName := componentName env,
      objectName := shortcut.1,
      text := description }
    let preferred (a : QAction) : QAction :=
      match env.xdgParse (env.toUpper (variantString shortcut.2 "preferred_trigger")) with
      | some k => a.setShortcut k
      | none => a
    let a2 : QAction :=
      match mapFind byName shortcut.1 with
      | some info => if !info.keys.isEmpty then { a1 with shortcuts := info.keys } else preferred a1
      | none => preferred a1
    ({ st with
        m_shortcuts := mapSet st.m_shortcuts shortcut.1 a2,
        brokerCalls := st.brokerCalls ++ [BrokerCall.setGlobalShortcut shortcut.1 a2.shortcuts] },
     mapErase byName shortcut.1)

def setActionsInAccel (env : Env) (st : Backend) (shortcuts : List Shortcut) : Backend :=
  (shortcuts.foldl (setActionInAccel env) (st, shortcutInfosByName env.allShortcutInfos)).1

/-- The conversion of a native modifier mask back to Qt modifiers, as both broker branches
spell it out. -/
def qtModifiers (modifier : Nat) : Nat :=
  let n0 := 0
  let n1 := if modifier &&& ShiftMask ≠ 0 then n0 ||| ShiftModifier else n0
  let n2 := if modifier &&& ControlMask ≠ 0 then n1 ||| ControlModifier else n1
  let n3 := if modifier &&& Mod1Mask ≠ 0 then n2 ||| AltModifier else n2
  if modifier &&& Mod4Mask ≠ 0 then n3 ||| MetaModifier else n3

def keySequenceOf (shortcut : NativeShortcut) : QKeySequence :=
  [shortcut.key ||| qtModifiers shortcut.modifier]

def combinationDescription (env : Env) (shortcut : NativeShortcut) : String :=
  env.keySequenceToString (keySequenceOf shortcut)

/-- The identifier both broker branches derive from a NativeShortcut. -/
def identifierOf (env : Env) (shortcut : NativeShortcut) : String :=
  getShorctIdentifier env (combinationDescription env shortcut)

/-! ## Registration -/

/-- The function `QHotkeyPrivateLinux::unregisterShortcut`. Its direct-grab branch tests
the display pointer only, and reads the static `HotkeyErrorHandler::hasError`, which a
failed grab burst of the calling `registerShortcut` has left set. -/
def unregisterShortcut (env : Env) (st : Backend) (shortcut : NativeShortcut) : Backend × Bool :=
  if st.isX11 then
    if !st.display then
      (st, false)
    else
      let (st1, prevHandler) := errorHandlerInstall st
      let st2 := ungrabBurst env st1 shortcut
      if st2.hasError then
        (errorHandlerRestore { st2 with error := st2.errorString } prevHandler, false)
      else
        (errorHandlerRestore st2 prevHandler, true)
  else if st.isWayland then
    let identifier := getShorctIdentifier env (combinationDescription env shortcut)
    let st1 :=
      match mapFind st.m_shortcuts identifier with
      | some _ => { st with
          brokerCalls := st.brokerCalls ++ [BrokerCall.removeAllShortcuts identifier],
          m_shortcuts := mapErase st.m_shortcuts identifier }
      | none => st
    ({ st1 with m_registerdShortcutMapping := mapErase st1.m_registerdShortcutMapping identifier }, true)
  else
    (st, false)

/-- The function `QHotkeyPrivateLinux::registerShortcut`. -/
def registerShortcut (env : Env) (st : Backend) (shortcut : NativeShortcut) : Backend × Bool :=
  if st.isX11 then
    if !st.display || !st.x11Interface then
      (st, false)
    else
      let (st1, prevHandler) := errorHandlerInstall st
      let st2 := grabBurst env st1 shortcut
      if st2.hasError then
        let st3 := { st2 with error := st2.errorString }
        let st4 := (unregisterShortcut env st3 shortcut).1
        (errorHandlerRestore st4 prevHandler, false)
      else
        (errorHandlerRestore st2 prevHandler, true)
  else if st.isWayland then
    let combination_description := combinationDescription env shortcut
    let converted : Shortcut :=
      (getShorctIdentifier env combination_description,
        [("description", combination_description ++ " by " ++ env.applicationName),
         ("preferred_trigger", combination_description)])
    if env.isGlobalShortcutAvailable (keySequenceOf shortcut) then
      let st1 := { st with
        m_registerdShortcutMapping :=
          mapInsert st.m_registerdShortcutMapping (getShorctIdentifier env combination_description) shortcut }
      (setActionsInAccel env st1 [converted], true)
    else
      ({ st with error := "The shortcut " ++ combination_description ++ " is already in use by another application." }, false)
  else
    (st, false)

def grabbedStep (key modifiers : Nat) (g : Bool) (r : XRequest) : Bool :=
  if r = XRequest.grabKey key modifiers then true
  else if r = XRequest.ungrabKey key modifiers then false
  else g

/-- Whether the last request in the log that names the pair is a grab: the passive grabs
this client has asked for and not released again. -/
def grabbed (log : List XRequest) (key modifiers : Nat) : Bool :=
  log.foldl (grabbedStep key modifiers) false

def isGrabKey : XRequest → Bool
  | .grabKey _ _ => true
  | _ => false

/-- The grab requests of one registration, in the order of `specialModifiers`. -/
def grabVariants (shortcut : NativeShortcut) : List XRequest :=
  specialModifiers.map (fun specialMod => XRequest.grabKey shortcut.key (shortcut.modifier ||| specialMod))

def ungrabVariants (shortcut : NativeShortcut) : List XRequest :=
  specialModifiers.map (fun specialMod => XRequest.ungrabKey shortcut.key (shortcut.modifier ||| specialMod))

/-- The backend inside `registerShortcut` right after the `XSync` that ends the grab burst,
where the code tests `errorHandler.hasError`. -/
def afterGrabBurst (env : Env) (st : Backend) (shortcut : NativeShortcut) : Backend :=
  grabBurst env (errorHandlerInstall st).1 shortcut

/-- The backend inside the rollback call of `unregisterShortcut` right after the `XSync`
that ends the ungrab burst, where the code tests `HotkeyErrorHandler::hasError`. -/
def afterRollbackBurst (env : Env) (st : Backend) (shortcut : NativeShortcut) : Backend :=
  let g := afterGrabBurst env st shortcut
  ungrabBurst env (errorHandlerInstall { g with error := g.errorString }).1 shortcut

/-! ## Raw event handling -/

/-- What one call of `nativeEventFilter` does besides changing the backend: its return
value, the notifications it issues synchronously, and the release event captured by the
single-shot timer it starts, if it starts one. -/
structure FilterResult where
  st : Backend
  result : Bool
  notes : List Notification
  timer : Option KeyEvent
  deriving DecidableEq, Repr

/-- The function `QHotkeyPrivateLinux::nativeEventFilter`; `message` is the generic event,
of which a non-key event has only its `response_type` read. -/
def nativeEventFilter (st : Backend) (message : KeyEvent) : FilterResult :=
  if st.isX11 then
    if message.response_type = XCB_KEY_PRESS then
      let st1 := { st with prevEvent := message }
      if st1.prevHandledEvent.response_type = XCB_KEY_RELEASE
          ∧ st1.prevHandledEvent.time = message.time then
        ⟨st1, false, [], none⟩
      else
        ⟨st1, false,
          [Notification.activate ⟨message.detail, message.state &&& validModsMask⟩], none⟩
    else if message.response_type = XCB_KEY_RELEASE then
      ⟨{ st with prevEvent := message, prevHandledEvent := message }, false, [], some message⟩
    else
      ⟨st, false, [], none⟩
  else
    ⟨st, false, [], none⟩

/-- The body of the lambda given to `QTimer::singleShot(50, ...)`: it reads the backend as
it is when the timer fires and compares it with the captured release event. -/
def debounceCheck (st : Backend) (keyEvent : KeyEvent) : List Notification :=
  if st.prevEvent.time = keyEvent.time
      ∧ st.prevEvent.response_type = keyEvent.response_type
      ∧ st.prevEvent.detail = keyEvent.detail then
    [Notification.release ⟨keyEvent.detail, keyEvent.state &&& validModsMask⟩]
  else
    []

/-- The single-threaded event loop around the backend: the timers started and not yet
fired, oldest first (all have the same 50 ms delay), and the notifications issued so far. -/
structure EventLoop where
  backend : Backend
  pending : List KeyEvent
  trace : List Notification
  deriving DecidableEq, Repr

/-- The loop either delivers a native event to the filter or fires the oldest timer. -/
inductive LoopStep where
  | native (message : KeyEvent)
  | timeout
  deriving DecidableEq, Repr

def EventLoop.step (l : EventLoop) : LoopStep → EventLoop
  | .native message =>
    let r := nativeEventFilter l.backend message
    ⟨r.st, l.pending ++ r.timer.toList, l.trace ++ r.notes⟩
  | .timeout =>
    match l.pending with
    | [] => l
    | keyEvent :: rest => ⟨l.backend, rest, l.trace ++ debounceCheck l.backend keyEvent⟩

def EventLoop.run (l : EventLoop) (steps : List LoopStep) : EventLoop :=
  steps.foldl EventLoop.step l

def activations (trace : List Notification) : Nat :=
  trace.countP (fun n => match n with | .activate _ => true | .release _ => false)

def releases (trace : List Notification) : Nat :=
  trace.countP (fun n => match n with | .activate _ => false | .release _ => true)

/-- The notification a key event stands for: an activation for a press, a release for a
release, each for (keycode, state AND valid mask); nothing for any other event. -/
def notificationsOf (e : KeyEvent) : List Notification :=
  if e.response_type = XCB_KEY_PRESS then
    [Notification.activate ⟨e.detail, e.state &&& validModsMask⟩]
  else if e.response_type = XCB_KEY_RELEASE then
    [Notification.release ⟨e.detail, e.state &&& validModsMask⟩]
  else
    []

def traceOf : List KeyEvent → List Notification
  | [] => []
  | e :: rest => notificationsOf e ++ traceOf rest

/-- The schedule in which the timer of every release fires before the next event arrives. -/
def separated : List KeyEvent → List LoopStep
  | [] => []
  | e :: rest =>
    if e.response_type = XCB_KEY_RELEASE then
      LoopStep.native e :: LoopStep.timeout :: separated rest
    else
      LoopStep.native e :: separated rest

/-- No press in the list carries the timestamp of the release received last before it,
`prevHandled` being the record at the start. -/
def noRepeatedStamp (prevHandled : KeyEvent) : List KeyEvent → Bool
  | [] => true
  | e :: rest =>
    if e.response_type = XCB_KEY_PRESS then
      !(decide (prevHandled.response_type = XCB_KEY_RELEASE ∧ prevHandled.time = e.time))
        && noRepeatedStamp prevHandled rest
    else if e.response_type = XCB_KEY_RELEASE then
      noRepeatedStamp e rest
    else
      noRepeatedStamp prevHandled rest

/-- Scan of a trace for one shortcut: `seen` is the number of its release notifications
since its last activation, if there was one. Each activation after the first must find
exactly one. -/
def gapOK (s : NativeShortcut) : Option Nat → List Notification → Bool
  | _, [] => true
  | seen, Notification.activate s1 :: rest =>
    if s1 = s then
      (match seen with
        | none => true
        | some n => n == 1) && gapOK s (some 0) rest
    else gapOK s seen rest
  | seen, Notification.release s1 :: rest =>
    if s1 = s then gapOK s (seen.map (fun n => n + 1)) rest else gapOK s seen rest

/-- The edge-triggering invariant: between two successive activations of the same
shortcut the trace holds exactly one release notification of that shortcut. -/
def edgeTriggered (trace : List Notification) : Bool :=
  trace.all (fun n =>
    match n with
    | Notification.activate s => gapOK s none trace
    | Notification.release _ => true)

/-- The release event the steps delivered last, or `init` when they delivered none. -/
def lastRelease (init : KeyEvent) (steps : List LoopStep) : KeyEvent :=
  steps.foldl (fun acc step =>
    match step with
    | LoopStep.native m => if m.response_type = XCB_KEY_RELEASE then m else acc
    | LoopStep.timeout => acc) init

/-- The event handled last, read from the words alone: walking the steps, an event counts
as handled when the filter call that received it issued a notification or started a timer;
`last` is the event handled before the steps. -/
def handledLast (b : Backend) (last : KeyEvent) : List LoopStep → KeyEvent
  | [] => last
  | LoopStep.native m :: rest =>
    handledLast (nativeEventFilter b m).st
      (if (nativeEventFilter b m).notes ≠ [] ∨ (nativeEventFilter b m).timer ≠ none then m else last)
      rest
  | LoopStep.timeout :: rest => handledLast b last rest

/-- The timestamps of the key events among the steps never decrease, starting from `t`. -/
def stampsAscend (t : Nat) : List LoopStep → Bool
  | [] => true
  | LoopStep.native m :: rest =>
    if m.response_type = XCB_KEY_PRESS ∨ m.response_type = XCB_KEY_RELEASE then
      decide (t ≤ m.time) && stampsAscend m.time rest
    else
      stampsAscend t rest
  | LoopStep.timeout :: rest => stampsAscend t rest

/-! ## Modifier conversion, broker signals and startup reload -/

/-- The function `QHotkeyPrivateLinux::nativeModifiers`: the native mask and the value it
stores in `ok`. -/
def nativeModifiers (modifiers : Nat) : Nat × Bool :=
  let n0 := 0
  let n1 := if modifiers &&& ShiftModifier ≠ 0 then n0 ||| ShiftMask else n0
  let n2 := if modifiers &&& ControlModifier ≠ 0 then n1 ||| ControlMask else n1
  let n3 := if modifiers &&& AltModifier ≠ 0 then n2 ||| Mod1Mask else n2
  let n4 := if modifiers &&& MetaModifier ≠ 0 then n3 ||| Mod4Mask else n3
  (n4, true)

/-- The lambda connected to `globalShortcutPressed`, with the calls of `activateShortcut`
it makes. -/
def globalShortcutPressed (env : Env) (st : Backend) (componentUnique actionUnique : String)
    (_timestamp : Int) : Backend × List Notification :=
  if componentUnique ≠ componentName env then
    (st, [])
  else
    match mapFind st.m_registerdShortcutMapping actionUnique with
    | some shortcut => (st, [Notification.activate shortcut])
    | none => (st, [])

/-- The lambda connected to `globalShortcutReleased`, with the calls of `releaseShortcut`
it makes. -/
def globalShortcutReleased (env : Env) (st : Backend) (componentUnique actionUnique : String)
    (_timestamp : Int) : Backend × List Notification :=
  if componentUnique ≠ componentName env then
    (st, [])
  else
    match mapFind st.m_registerdShortcutMapping actionUnique with
    | some shortcut => (st, [Notification.release shortcut])
    | none => (st, [])

/-- The body of the loop of `loadActionsFromAccel` for one entry of the hash. -/
def loadActionFromAccel (env : Env) (st : Backend) (entry : String × KGlobalShortcutInfo) :
    Backend :=
  let a0 : QAction := (mapFind st.m_shortcuts entry.1).getD {}
  let a1 : QAction := { a0 with
    componentName := componentName env,
    componentDisplayName := componentName env,
    objectName := entry.1,
    text := entry.2.friendlyName,
    shortcuts := entry.2.keys }
  { st with
    m_shortcuts := mapSet st.m_shortcuts entry.1 a1,
    brokerCalls := st.brokerCalls ++ [BrokerCall.setShortcutAutoloading entry.1 a1.shortcuts] }

/-- The function `QHotkeyPrivateLinux::loadActionsFromAccel`: the action list is cleared
and rebuilt from the broker's enumeration. -/
def loadActionsFromAccel (env : Env) (st : Backend) : Backend :=
  (shortcutInfosByName env.allShortcutInfos).foldl (loadActionFromAccel env)
    { st with m_shortcuts := [] }

/-- The action `loadActionsFromAccel` builds for one enumerated entry. -/
def reloadedAction (env : Env) (info : KGlobalShortcutInfo) : QAction where
  componentName := componentName env
  componentDisplayName := componentName env
  objectName := info.uniqueName
  text := info.friendlyName
  shortcuts := info.keys

/-- The Qt modifier bits that have a native counterpart. -/
def qtModsMask : Nat := ShiftModifier ||| ControlModifier ||| AltModifier ||| MetaModifier

/-! ## Sample inputs -/

def sampleEnv : Env where
  XGetErrorText := fun code => if code = BadAccess then "BadAccess" else "BadValue"
  keySequenceToString := fun k =>
    if k = [0x41 ||| ControlModifier] then "Ctrl+A"
    else if k = [0x41 ||| ShiftModifier ||| ControlModifier] then "Ctrl+Shift+A"
    else "?"
  toLower := fun s => s
  toUpper := fun s => s
  applicationName := "app"
  organizationDomain := "org"
  applicationFilePath := "/bin/app"
  isGlobalShortcutAvailable := fun _ => true
  allShortcutInfos := []
  xdgParse := fun _ => none

/-- The sample environment with a broker that reports every combination as taken. -/
def busyEnv : Env :=
  { sampleEnv with isGlobalShortcutAvailable := fun _ => false }

/-- A backend on an X11 session with no traffic yet; `replies` are the errors the display
will deliver at the coming syncs. -/
def x11Backend (replies : List (List XErrorEvent)) : Backend where
  isX11 := true
  isWayland := false
  display := true
  x11Interface := true
  error := ""
  hasError := false
  errorString := ""
  xErrorHandler := XErrorHandler.other 0
  xRequests := []
  xReplies := replies
  prevHandledEvent := ⟨0, 0, 0, 0⟩
  prevEvent := ⟨0, 0, 0, 0⟩
  m_registerdShortcutMapping := []
  m_shortcuts := []
  brokerCalls := []

/-- A backend on a broker-managed session holding the given identifier map. -/
def waylandBackend (mapping : List (String × NativeShortcut)) : Backend where
  isX11 := false
  isWayland := true
  display := false
  x11Interface := false
  error := ""
  hasError := false
  errorString := ""
  xErrorHandler := XErrorHandler.other 0
  xRequests := []
  xReplies := []
  prevHandledEvent := ⟨0, 0, 0, 0⟩
  prevEvent := ⟨0, 0, 0, 0⟩
  m_registerdShortcutMapping := mapping
  m_shortcuts := []
  brokerCalls := []

/-- The sample environment with a broker that enumerates two stored actions. -/
def storedEnv : Env :=
  { sampleEnv with
    allShortcutInfos := [⟨"a.ctrl+a", "Ctrl+A by app", [[0x41 ||| ControlModifier]]⟩,
                         ⟨"a.ctrl+b", "Ctrl+B by app", [[0x42 ||| ControlModifier]]⟩] }

end QHotkeyLinux

/-! # The accumulator of udcpptools.cpp -/

namespace UDCppTools

/-- The value an `int` holds after a result `x` of unbounded arithmetic is stored in it:
two's complement wrap-around into the 32-bit signed range. -/
def wrapInt (x : Int) : Int :=
  (x + 2147483648) % 4294967296 - 2147483648

/-- The class `Calculator`; its one member is an `int`. -/
structure Calculator where
  last_result_ : Int
  deriving DecidableEq, Repr

/-- The constructor `Calculator::Calculator`. -/
def Calculator.create : Calculator := ⟨0⟩

def Calculator.add (c : Calculator) (value : Int) : Calculator :=
  ⟨wrapInt (c.last_result_ + value)⟩

def Calculator.subtract (c : Calculator) (value : Int) : Calculator :=
  ⟨wrapInt (c.last_result_ - value)⟩

def Calculator.getResult (c : Calculator) : Int :=
  c.last_result_

/-- The three methods the Python module binds. -/
inductive Call where
  | add (value : Int)
  | subtract (value : Int)
  | get_result
  deriving DecidableEq, Repr

/-- One bound call: the object afterwards and the value returned, if the method returns
one. -/
def Calculator.call (c : Calculator) : Call → Calculator × Option Int
  | Call.add value => (c.add value, none)
  | Call.subtract value => (c.subtract value, none)
  | Call.get_result => (c, some c.getResult)

def Calculator.run (c : Calculator) (calls : List Call) : Calculator :=
  calls.foldl (fun acc k => (acc.call k).1) c

/-- The sum of all added values minus the sum of all subtracted values, unbounded. -/
def netSum : List Call → Int
  | [] => 0
  | Call.add value :: rest => value + netSum rest
  | Call.subtract value :: rest => netSum rest - value
  | Call.get_result :: rest => netSum rest

end UDCppTools

/-! # The OS version predicates of UDFrameless.cpp -/

namespace UDFrameless

/-- The fields of `RTL_OSVERSIONINFOW` that the predicates read; `GetRealOSVersion`
supplies the value. -/
structure RTL_OSVERSIONINFOW where
  dwMajorVersion : Nat
  dwMinorVersion : Nat
  dwBuildNumber : Nat
  deriving DecidableEq, Repr

def isWin8OrGreater (rovi : RTL_OSVERSIONINFOW) : Bool :=
  decide (rovi.dwMajorVersion > 6)
    || (rovi.dwMajorVersion == 6 && decide (rovi.dwMinorVersion ≥ 2))

def isWin7Only (rovi : RTL_OSVERSIONINFOW) : Bool :=
  rovi.dwMajorVersion == 7

/-- The test that opens the branch for "dwm-blur" in `setWindowEffect`: when it holds the
function returns false at once. -/
def dwmBlurRefused (rovi : RTL_OSVERSIONINFOW) (compositionEnabled functionPointers : Bool) :
    Bool :=
  (isWin7Only rovi && !compositionEnabled) || !functionPointers

end UDFrameless

namespace QHotkeyLinux

/-! ## Lemmas on the display traffic -/

theorem flagAfter_true (errs : List XErrorEvent) : flagAfter true errs = true := by
  induction errs with
  | nil => rfl
  | cons e rest ih => simpa [flagAfter, List.foldl] using ih

theorem textAfter_of_unclassified (env : Env) (text : String) (errs : List XErrorEvent)
    (h : ∀ e ∈ errs, classified e = false) : textAfter env text errs = text := by
  induction errs generalizing text with
  | nil => rfl
  | cons e rest ih =>
    have he : classified e = false := h e (List.mem_cons_self _ _)
    have hr : ∀ x ∈ rest, classified x = false := fun x hx => h x (List.mem_cons_of_mem _ hx)
    simpa [textAfter, List.foldl, he] using ih text hr

theorem textAfter_cases (env : Env) (text : String) (errs : List XErrorEvent) :
    textAfter env text errs = text
      ∨ ∃ e ∈ errs, classified e = true ∧ textAfter env text errs = formatX11Error env e.error_code := by
  induction errs generalizing text with
  | nil => exact Or.inl rfl
  | cons e rest ih =>
    by_cases he : classified e = true
    · have hstep : textAfter env text (e :: rest)
          = textAfter env (formatX11Error env e.error_code) rest := by
        simp [textAfter, List.foldl, he]
      rcases ih (formatX11Error env e.error_code) with h | ⟨x, hx, hc, hxt⟩
      · exact Or.inr ⟨e, List.mem_cons_self _ _, he, by rw [hstep, h]⟩
      · exact Or.inr ⟨x, List.mem_cons_of_mem _ hx, hc, by rw [hstep, hxt]⟩
    · have hstep : textAfter env text (e :: rest) = textAfter env text rest := by
        simp [textAfter, List.foldl, he]
      rcases ih text with h | ⟨x, hx, hc, hxt⟩
      · exact Or.inl (by rw [hstep, h])
      · exact Or.inr ⟨x, List.mem_cons_of_mem _ hx, hc, by rw [hstep, hxt]⟩

theorem textAfter_of_flag (env : Env) (flag : Bool) (text : String) (errs : List XErrorEvent)
    (h : flagAfter flag errs = true) :
    flag = true
      ∨ ∃ e ∈ errs, classified e = true ∧ textAfter env text errs = formatX11Error env e.error_code := by
  induction errs generalizing flag text with
  | nil => exact Or.inl h
  | cons e rest ih =>
    by_cases he : classified e = true
    · have hstep : textAfter env text (e :: rest)
          = textAfter env (formatX11Error env e.error_code) rest := by
        simp [textAfter, List.foldl, he]
      rcases textAfter_cases env (formatX11Error env e.error_code) rest with h1 | ⟨x, hx, hc, hxt⟩
      · exact Or.inr ⟨e, List.mem_cons_self _ _, he, by rw [hstep, h1]⟩
      · exact Or.inr ⟨x, List.mem_cons_of_mem _ hx, hc, by rw [hstep, hxt]⟩
    · have hf : classified e = false := by simpa using he
      have hstep : textAfter env text (e :: rest) = textAfter env text rest := by
        simp [textAfter, List.foldl, hf]
      have hflag : flagAfter flag (e :: rest) = flagAfter flag rest := by
        simp [flagAfter, List.foldl, hf]
      rw [hflag] at h
      rcases ih flag text h with h1 | ⟨x, hx, hc, hxt⟩
      · exact Or.inl h1
      · exact Or.inr ⟨x, List.mem_cons_of_mem _ hx, hc, by rw [hstep, hxt]⟩

/-- With the interceptor installed, the events of one sync leave everything but the
interceptor statics alone, and those are the fold of the classified events. -/
theorem deliver_hotkey (env : Env) (st : Backend) (errs : List XErrorEvent)
    (h : st.xErrorHandler = XErrorHandler.hotkey) :
    errs.foldl (dispatchError env) st
      = { st with hasError := flagAfter st.hasError errs,
                  errorString := textAfter env st.errorString errs } := by
  induction errs generalizing st with
  | nil => rfl
  | cons e rest ih =>
    have hd : (dispatchError env st e).xErrorHandler = XErrorHandler.hotkey := by
      unfold dispatchError handleError
      rw [h]; dsimp only; split <;> simp [h]
    rw [List.foldl_cons, ih _ hd]
    unfold dispatchError handleError
    rw [h]; dsimp only
    by_cases hc : classified e = true
    · simp [hc, h, flagAfter, textAfter, List.foldl]
    · simp [hc, h, flagAfter, textAfter, List.foldl]

theorem xSync_hotkey (env : Env) (st : Backend) (h : st.xErrorHandler = XErrorHandler.hotkey) :
    xSync env st
      = { st with xRequests := st.xRequests ++ [XRequest.sync],
                  xReplies := st.xReplies.tail,
                  hasError := flagAfter st.hasError (st.xReplies.headD []),
                  errorString := textAfter env st.errorString (st.xReplies.headD []) } := by
  exact deliver_hotkey env
    { st with xRequests := st.xRequests ++ [XRequest.sync], xReplies := st.xReplies.tail }
    (st.xReplies.headD []) h

theorem grabBurst_hotkey (env : Env) (st : Backend) (s : NativeShortcut)
    (h : st.xErrorHandler = XErrorHandler.hotkey) :
    grabBurst env st s
      = { st with xRequests := st.xRequests ++ grabVariants s ++ [XRequest.sync],
                  xReplies := st.xReplies.tail,
                  hasError := flagAfter st.hasError (st.xReplies.headD []),
                  errorString := textAfter env st.errorString (st.xReplies.headD []) } := by
  unfold grabBurst
  rw [xSync_hotkey env _ (by simp [specialModifiers, xRequest, List.foldl, h])]
  simp [specialModifiers, grabVariants, xRequest, List.foldl]

theorem ungrabBurst_hotkey (env : Env) (st : Backend) (s : NativeShortcut)
    (h : st.xErrorHandler = XErrorHandler.hotkey) :
    ungrabBurst env st s
      = { st with xRequests := st.xRequests ++ ungrabVariants s ++ [XRequest.sync],
                  xReplies := st.xReplies.tail,
                  hasError := flagAfter st.hasError (st.xReplies.headD []),
                  errorString := textAfter env st.errorString (st.xReplies.headD []) } := by
  unfold ungrabBurst
  rw [xSync_hotkey env _ (by simp [specialModifiers, xRequest, List.foldl, h])]
  simp [specialModifiers, ungrabVariants, xRequest, List.foldl]

theorem afterGrabBurst_eq (env : Env) (st : Backend) (s : NativeShortcut) :
    afterGrabBurst env st s
      = { st with xErrorHandler := XErrorHandler.hotkey,
                  xRequests := st.xRequests ++ grabVariants s ++ [XRequest.sync],
                  xReplies := st.xReplies.tail,
                  hasError := flagAfter st.hasError (st.xReplies.headD []),
                  errorString := textAfter env st.errorString (st.xReplies.headD []) } := by
  unfold afterGrabBurst errorHandlerInstall
  rw [grabBurst_hotkey env _ s rfl]

theorem afterRollbackBurst_eq (env : Env) (st : Backend) (s : NativeShortcut) :
    afterRollbackBurst env st s
      = { afterGrabBurst env st s with
          error := (afterGrabBurst env st s).errorString,
          xRequests := (afterGrabBurst env st s).xRequests ++ ungrabVariants s ++ [XRequest.sync],
          xReplies := (afterGrabBurst env st s).xReplies.tail,
          hasError := flagAfter (afterGrabBurst env st s).hasError
            ((afterGrabBurst env st s).xReplies.headD []),
          errorString := textAfter env (afterGrabBurst env st s).errorString
            ((afterGrabBurst env st s).xReplies.headD []) } := by
  unfold afterRollbackBurst errorHandlerInstall
  dsimp only
  rw [ungrabBurst_hotkey env _ s rfl]
  rw [afterGrabBurst_eq]

theorem unregisterShortcut_x11 (env : Env) (st : Backend) (s : NativeShortcut)
    (hx : st.isX11 = true) (hd : st.display = true) :
    unregisterShortcut env st s
      = if (ungrabBurst env (errorHandlerInstall st).1 s).hasError then
          (errorHandlerRestore
            { ungrabBurst env (errorHandlerInstall st).1 s with
              error := (ungrabBurst env (errorHandlerInstall st).1 s).errorString }
            st.xErrorHandler, false)
        else
          (errorHandlerRestore (ungrabBurst env (errorHandlerInstall st).1 s) st.xErrorHandler, true) := by
  unfold unregisterShortcut
  simp only [hx, hd, if_true, Bool.not_true, Bool.false_eq_true, if_false]
  rfl

theorem registerShortcut_x11 (env : Env) (st : Backend) (s : NativeShortcut)
    (hx : st.isX11 = true) (hd : st.display = true) (hi : st.x11Interface = true) :
    registerShortcut env st s
      = if (afterGrabBurst env st s).hasError then
          (errorHandlerRestore
            (unregisterShortcut env
              { afterGrabBurst env st s with error := (afterGrabBurst env st s).errorString } s).1
            st.xErrorHandler, false)
        else
          (errorHandlerRestore (afterGrabBurst env st s) st.xErrorHandler, true) := by
  unfold registerShortcut
  simp only [hx, hd, hi, if_true, Bool.not_true, Bool.or_self, Bool.false_eq_true, if_false]
  rfl

/-- The failing direct-grab registration, written out: the grab burst, the copy of the
recorded text, the nested ungrab burst with its own copy, and the two restores. -/
theorem registerShortcut_failed (env : Env) (st : Backend) (s : NativeShortcut)
    (hx : st.isX11 = true) (hd : st.display = true) (hi : st.x11Interface = true)
    (herr : (afterGrabBurst env st s).hasError = true) :
    registerShortcut env st s
      = ({ afterRollbackBurst env st s with
            error := (afterRollbackBurst env st s).errorString,
            xErrorHandler := st.xErrorHandler,
            hasError := false,
            errorString := "" }, false) := by
  have hu : (afterRollbackBurst env st s).hasError = true := by
    rw [afterRollbackBurst_eq]
    dsimp only
    rw [herr, flagAfter_true]
  have hdisp : (afterGrabBurst env st s).display = true := by
    rw [afterGrabBurst_eq]; exact hd
  have hx11 : (afterGrabBurst env st s).isX11 = true := by
    rw [afterGrabBurst_eq]; exact hx
  rw [registerShortcut_x11 env st s hx hd hi, herr, if_pos rfl]
  rw [unregisterShortcut_x11 env
    { afterGrabBurst env st s with error := (afterGrabBurst env st s).errorString } s hx11 hdisp]
  have hu2 : (ungrabBurst env (errorHandlerInstall
      { afterGrabBurst env st s with error := (afterGrabBurst env st s).errorString }).1 s).hasError
      = true := hu
  rw [hu2, if_pos rfl]
  simp [errorHandlerRestore, afterRollbackBurst]

theorem grabbed_fold_no_grab (key modifiers : Nat) (l : List XRequest)
    (hno : ∀ r ∈ l, isGrabKey r = false) :
    l.foldl (grabbedStep key modifiers) false = false := by
  induction l with
  | nil => rfl
  | cons r rest ih =>
    have hr : isGrabKey r = false := hno r (List.mem_cons_self _ _)
    have hstep : grabbedStep key modifiers false r = false := by
      unfold grabbedStep
      cases r <;> simp_all [isGrabKey]
    rw [List.foldl_cons, hstep]
    exact ih (fun x hx => hno x (List.mem_cons_of_mem _ hx))

theorem grabbed_fold_ungrab (key modifiers : Nat) (l : List XRequest) (g : Bool)
    (hno : ∀ r ∈ l, isGrabKey r = false) (hmem : XRequest.ungrabKey key modifiers ∈ l) :
    l.foldl (grabbedStep key modifiers) g = false := by
  induction l generalizing g with
  | nil => cases hmem
  | cons r rest ih =>
    have hrest : ∀ x ∈ rest, isGrabKey x = false := fun x hx => hno x (List.mem_cons_of_mem _ hx)
    rw [List.foldl_cons]
    rcases List.mem_cons.mp hmem with h | h
    · have hstep : grabbedStep key modifiers g r = false := by
        rw [← h]; simp [grabbedStep]
      rw [hstep]
      exact grabbed_fold_no_grab key modifiers rest hrest
    · exact ih _ hrest h

theorem afterRollbackBurst_requests (env : Env) (st : Backend) (s : NativeShortcut) :
    (afterRollbackBurst env st s).xRequests
      = st.xRequests ++ grabVariants s ++ [XRequest.sync] ++ ungrabVariants s ++ [XRequest.sync] := by
  rw [afterRollbackBurst_eq, afterGrabBurst_eq]

/-! ## Direct-grab registration -/

/-- C1. In direct-grab mode with a usable display, whenever the interceptor holds a
recorded error at the test that follows the grab burst, `registerShortcut` returns false;
the backend error text is the text the interceptor holds when the rollback copies it, which
is the text held after the grab burst unless an ungrab of the rollback is itself recorded,
and is the platform text of a recorded error; the call has issued, after the four grabs, an
ungrab for each of the four modifier variants, so no variant is left grabbed. -/
theorem registerShortcut_rollback (env : Env) (st : Backend) (s : NativeShortcut)
    (hx : st.isX11 = true) (hd : st.display = true) (hi : st.x11Interface = true)
    (herr : (afterGrabBurst env st s).hasError = true) :
    (registerShortcut env st s).2 = false
      ∧ (registerShortcut env st s).1.error = (afterRollbackBurst env st s).errorString
      ∧ ((∀ e ∈ (afterGrabBurst env st s).xReplies.headD [], classified e = false) →
          (registerShortcut env st s).1.error = (afterGrabBurst env st s).errorString)
      ∧ (st.hasError = false →
          ∃ e, classified e = true
            ∧ (registerShortcut env st s).1.error = formatX11Error env e.error_code)
      ∧ (registerShortcut env st s).1.xRequests
          = st.xRequests ++ grabVariants s ++ [XRequest.sync] ++ ungrabVariants s ++ [XRequest.sync]
      ∧ ∀ sp ∈ specialModifiers,
          grabbed (registerShortcut env st s).1.xRequests s.key (s.modifier ||| sp) = false := by
  rw [registerShortcut_failed env st s hx hd hi herr]
  have hreq := afterRollbackBurst_requests env st s
  have htext : (afterRollbackBurst env st s).errorString
      = textAfter env (afterGrabBurst env st s).errorString
          ((afterGrabBurst env st s).xReplies.headD []) := by
    rw [afterRollbackBurst_eq]
  refine ⟨rfl, rfl, ?_, ?_, hreq, ?_⟩
  · intro hnone
    show (afterRollbackBurst env st s).errorString = _
    rw [htext]
    exact textAfter_of_unclassified env _ _ hnone
  · intro hclean
    show ∃ e, classified e = true
      ∧ (afterRollbackBurst env st s).errorString = formatX11Error env e.error_code
    have hflag : flagAfter false (st.xReplies.headD []) = true := by
      have := herr
      rw [afterGrabBurst_eq] at this
      simpa [hclean] using this
    have hgtext : (afterGrabBurst env st s).errorString
        = textAfter env st.errorString (st.xReplies.headD []) := by
      rw [afterGrabBurst_eq]
    rcases textAfter_of_flag env false st.errorString _ hflag with h | ⟨e, _, hc, het⟩
    · exact Bool.noConfusion h
    · rcases textAfter_cases env (afterGrabBurst env st s).errorString
          ((afterGrabBurst env st s).xReplies.headD []) with h2 | ⟨e2, _, hc2, het2⟩
      · exact ⟨e, hc, by rw [htext, h2, hgtext, het]⟩
      · exact ⟨e2, hc2, by rw [htext, het2]⟩
  · intro sp hsp
    show grabbed (afterRollbackBurst env st s).xRequests s.key (s.modifier ||| sp) = false
    rw [hreq]
    unfold grabbed
    rw [List.append_assoc, List.foldl_append]
    apply grabbed_fold_ungrab
    · intro r hr
      rcases List.mem_append.mp hr with h | h
      · obtain ⟨x, _, rfl⟩ := List.mem_map.mp h
        rfl
      · rw [List.mem_singleton.mp h]; rfl
    · exact List.mem_append_left _ (List.mem_map.mpr ⟨sp, hsp, rfl⟩)

theorem registerShortcut_rollback_witness :
    (afterGrabBurst sampleEnv (x11Backend [[⟨BadAccess, 33⟩]]) ⟨38, 5⟩).hasError = true
      ∧ (registerShortcut sampleEnv (x11Backend [[⟨BadAccess, 33⟩]]) ⟨38, 5⟩).2 = false
      ∧ (registerShortcut sampleEnv (x11Backend [[⟨BadAccess, 33⟩]]) ⟨38, 5⟩).1.xRequests
          = [] ++ grabVariants ⟨38, 5⟩ ++ [XRequest.sync] ++ ungrabVariants ⟨38, 5⟩ ++ [XRequest.sync] :=
  have h := registerShortcut_rollback sampleEnv (x11Backend [[⟨BadAccess, 33⟩]]) ⟨38, 5⟩
    rfl rfl rfl (by decide)
  ⟨by decide, h.1, h.2.2.2.2.1⟩

/-- C2. In direct-grab mode with a usable display, the requests `registerShortcut` adds to
the log hold exactly one grab per member of the special-modifier list
0, Mod2Mask, LockMask, Mod2Mask|LockMask, in that order, each with keycode `s.key` and mask
`s.modifier` OR that member; and the call returns true when the interceptor holds no
recorded error after the grab burst. -/
theorem registerShortcut_grabs (env : Env) (st : Backend) (s : NativeShortcut)
    (hx : st.isX11 = true) (hd : st.display = true) (hi : st.x11Interface = true) :
    ((registerShortcut env st s).1.xRequests.drop st.xRequests.length).filter isGrabKey
        = [XRequest.grabKey s.key (s.modifier ||| 0),
           XRequest.grabKey s.key (s.modifier ||| Mod2Mask),
           XRequest.grabKey s.key (s.modifier ||| LockMask),
           XRequest.grabKey s.key (s.modifier ||| (Mod2Mask ||| LockMask))]
      ∧ (registerShortcut env st s).1.xRequests.take st.xRequests.length = st.xRequests
      ∧ ((afterGrabBurst env st s).hasError = false → (registerShortcut env st s).2 = true) := by
  by_cases herr : (afterGrabBurst env st s).hasError = true
  · rw [registerShortcut_failed env st s hx hd hi herr]
    dsimp only
    rw [afterRollbackBurst_requests]
    refine ⟨?_, ?_, ?_⟩
    · simp [List.append_assoc, ungrabVariants, grabVariants, specialModifiers, isGrabKey]
    · simp [List.append_assoc]
    · intro hno; rw [hno] at herr; exact Bool.noConfusion herr
  · have hno : (afterGrabBurst env st s).hasError = false := by simpa using herr
    rw [registerShortcut_x11 env st s hx hd hi, hno]
    simp only [Bool.false_eq_true, if_false]
    have hreq : (errorHandlerRestore (afterGrabBurst env st s) st.xErrorHandler).xRequests
        = st.xRequests ++ grabVariants s ++ [XRequest.sync] := by
      rw [afterGrabBurst_eq]; rfl
    rw [hreq]
    refine ⟨?_, ?_, ?_⟩
    · simp [List.append_assoc, grabVariants, specialModifiers, isGrabKey]
    · simp [List.append_assoc]
    · intro _; trivial

theorem registerShortcut_grabs_witness :
    ((registerShortcut sampleEnv (x11Backend []) ⟨38, 5⟩).1.xRequests.drop 0).filter isGrabKey
        = [XRequest.grabKey 38 5, XRequest.grabKey 38 21, XRequest.grabKey 38 7,
           XRequest.grabKey 38 23]
      ∧ (registerShortcut sampleEnv (x11Backend []) ⟨38, 5⟩).2 = true :=
  have h := registerShortcut_grabs sampleEnv (x11Backend []) ⟨38, 5⟩ rfl rfl rfl
  ⟨h.1, h.2.2 (by decide)⟩

/-! ## Raw key events -/

theorem special_and_valid (sp : Nat) (hsp : sp ∈ specialModifiers) : sp &&& validModsMask = 0 := by
  simp only [specialModifiers, List.mem_cons, List.mem_singleton, List.not_mem_nil, or_false] at hsp
  rcases hsp with h | h | h | h <;> subst h <;> decide

theorem nativeEventFilter_press (st : Backend) (e : KeyEvent) (hx : st.isX11 = true)
    (hp : e.response_type = XCB_KEY_PRESS) :
    nativeEventFilter st e
      = if st.prevHandledEvent.response_type = XCB_KEY_RELEASE ∧ st.prevHandledEvent.time = e.time then
          ⟨{ st with prevEvent := e }, false, [], none⟩
        else
          ⟨{ st with prevEvent := e }, false,
            [Notification.activate ⟨e.detail, e.state &&& validModsMask⟩], none⟩ := by
  unfold nativeEventFilter
  rw [if_pos hx, if_pos hp]

theorem nativeEventFilter_release (st : Backend) (e : KeyEvent) (hx : st.isX11 = true)
    (hr : e.response_type = XCB_KEY_RELEASE) :
    nativeEventFilter st e
      = ⟨{ st with prevEvent := e, prevHandledEvent := e }, false, [], some e⟩ := by
  unfold nativeEventFilter
  have hne : ¬ e.response_type = XCB_KEY_PRESS := by rw [hr]; decide
  rw [if_pos hx, if_neg hne, if_pos hr]

theorem nativeEventFilter_other (st : Backend) (e : KeyEvent)
    (hp : ¬ e.response_type = XCB_KEY_PRESS) (hr : ¬ e.response_type = XCB_KEY_RELEASE) :
    nativeEventFilter st e = ⟨st, false, [], none⟩ := by
  unfold nativeEventFilter
  simp only [hp, hr, if_false, ite_self]

/-- C3. For a NativeShortcut (key, modifier) whose modifier lies within the valid mask and
any member sp of the special-modifier list, masking the state (modifier OR sp) with the
valid mask gives back modifier; so every notification the press handler issues for a press
of keycode key with that state is the activation of exactly (key, modifier), and it issues
that activation unless the dedupe rule applies. -/
theorem press_strips_special_modifiers (st : Backend) (key modifier sp time : Nat)
    (hx : st.isX11 = true) (hv : modifier &&& validModsMask = modifier)
    (hsp : sp ∈ specialModifiers) :
    (modifier ||| sp) &&& validModsMask = modifier
      ∧ (∀ n ∈ (nativeEventFilter st ⟨XCB_KEY_PRESS, key, time, modifier ||| sp⟩).notes,
          n = Notification.activate ⟨key, modifier⟩)
      ∧ (¬ (st.prevHandledEvent.response_type = XCB_KEY_RELEASE ∧ st.prevHandledEvent.time = time) →
          (nativeEventFilter st ⟨XCB_KEY_PRESS, key, time, modifier ||| sp⟩).notes
            = [Notification.activate ⟨key, modifier⟩]) := by
  have hmask : (modifier ||| sp) &&& validModsMask = modifier := by
    rw [Nat.and_comm, Nat.and_or_distrib_left, Nat.and_comm validModsMask modifier, hv,
      Nat.and_comm validModsMask sp, special_and_valid sp hsp, Nat.or_zero]
  rw [nativeEventFilter_press st _ hx rfl]
  refine ⟨hmask, ?_, ?_⟩
  · intro n hn
    split at hn
    · cases hn
    · simp only [List.mem_singleton] at hn
      rw [hn]
      show Notification.activate ⟨key, (modifier ||| sp) &&& validModsMask⟩ = _
      rw [hmask]
  · intro hnot
    rw [if_neg hnot]
    show [Notification.activate ⟨key, (modifier ||| sp) &&& validModsMask⟩] = _
    rw [hmask]

theorem press_strips_special_modifiers_witness :
    (ControlMask ||| ShiftMask ||| (Mod2Mask ||| LockMask)) &&& validModsMask
        = ControlMask ||| ShiftMask
      ∧ (nativeEventFilter (x11Backend [])
            ⟨XCB_KEY_PRESS, 38, 1000, ControlMask ||| ShiftMask ||| (Mod2Mask ||| LockMask)⟩).notes
          = [Notification.activate ⟨38, ControlMask ||| ShiftMask⟩] :=
  have h := press_strips_special_modifiers (x11Backend []) 38 (ControlMask ||| ShiftMask)
    (Mod2Mask ||| LockMask) 1000 rfl (by decide) (by decide)
  ⟨h.1, h.2.2 (by decide)⟩

/-- C6. A key-release event issues no notification in the call that receives it: the call
only records the event and starts the single-shot timer that captures it. When the timer
fires, the check issues the release notification for (keycode, state AND valid mask) if and
only if the backend's latest key event then has the same timestamp, the same event type
and the same keycode as the captured release; otherwise it issues nothing. The latest key
event is what the filter stored at the last press or release it received. -/
theorem release_is_debounced (st later : Backend) (e : KeyEvent)
    (hx : st.isX11 = true) (hr : e.response_type = XCB_KEY_RELEASE) :
    (nativeEventFilter st e).notes = []
      ∧ (nativeEventFilter st e).timer = some e
      ∧ (debounceCheck later e
            = [Notification.release ⟨e.detail, e.state &&& validModsMask⟩]
          ↔ (later.prevEvent.time = e.time
              ∧ later.prevEvent.response_type = e.response_type
              ∧ later.prevEvent.detail = e.detail))
      ∧ (¬ (later.prevEvent.time = e.time
              ∧ later.prevEvent.response_type = e.response_type
              ∧ later.prevEvent.detail = e.detail) → debounceCheck later e = [])
      ∧ (∀ m : KeyEvent, m.response_type = XCB_KEY_PRESS ∨ m.response_type = XCB_KEY_RELEASE →
          (nativeEventFilter st m).st.prevEvent = m)
      ∧ (∀ m : KeyEvent, ¬ (m.response_type = XCB_KEY_PRESS ∨ m.response_type = XCB_KEY_RELEASE) →
          (nativeEventFilter st m).st = st) := by
  rw [nativeEventFilter_release st e hx hr]
  refine ⟨rfl, rfl, ?_, ?_, ?_, ?_⟩
  · unfold debounceCheck
    constructor
    · intro h
      by_contra hc
      rw [if_neg hc] at h
      cases h
    · intro h
      rw [if_pos h]
  · intro h
    unfold debounceCheck
    rw [if_neg h]
  · intro m hm
    rcases hm with h | h
    · rw [nativeEventFilter_press st m hx h]
      split <;> rfl
    · rw [nativeEventFilter_release st m hx h]
  · intro m hm
    push_neg at hm
    rw [nativeEventFilter_other st m hm.1 hm.2]

theorem release_is_debounced_witness :
    (nativeEventFilter (x11Backend []) ⟨XCB_KEY_RELEASE, 38, 1010, 5⟩).notes = []
      ∧ (nativeEventFilter (x11Backend []) ⟨XCB_KEY_RELEASE, 38, 1010, 5⟩).timer
          = some ⟨XCB_KEY_RELEASE, 38, 1010, 5⟩
      ∧ debounceCheck (x11Backend []) ⟨XCB_KEY_RELEASE, 38, 1010, 5⟩ = [] :=
  have h := release_is_debounced (x11Backend []) (x11Backend []) ⟨XCB_KEY_RELEASE, 38, 1010, 5⟩
    rfl rfl
  ⟨h.1, h.2.1, h.2.2.2.1 (by decide)⟩

/-- C8. A press (k, m) that the dedupe rule does not apply to, followed by a release (k, m)
at any timestamp (a later one in particular) and then by the debounce check, with no other
event in between: the press issues one activation at once, the release issues nothing when
received, and the check issues one release notification, both for (k, m AND valid mask). -/
theorem press_release_scenario (st : Backend) (k m t1 t2 : Nat) (hx : st.isX11 = true)
    (hprev : ¬ (st.prevHandledEvent.response_type = XCB_KEY_RELEASE
      ∧ st.prevHandledEvent.time = t1)) :
    (EventLoop.run ⟨st, [], []⟩ [LoopStep.native ⟨XCB_KEY_PRESS, k, t1, m⟩]).trace
        = [Notification.activate ⟨k, m &&& validModsMask⟩]
      ∧ (EventLoop.run ⟨st, [], []⟩
          [LoopStep.native ⟨XCB_KEY_PRESS, k, t1, m⟩,
           LoopStep.native ⟨XCB_KEY_RELEASE, k, t2, m⟩]).trace
        = [Notification.activate ⟨k, m &&& validModsMask⟩]
      ∧ (EventLoop.run ⟨st, [], []⟩
          [LoopStep.native ⟨XCB_KEY_PRESS, k, t1, m⟩,
           LoopStep.native ⟨XCB_KEY_RELEASE, k, t2, m⟩,
           LoopStep.timeout]).trace
        = [Notification.activate ⟨k, m &&& validModsMask⟩,
           Notification.release ⟨k, m &&& validModsMask⟩] := by
  have hx1 : ({ st with prevEvent := ⟨XCB_KEY_PRESS, k, t1, m⟩ } : Backend).isX11 = true := hx
  refine ⟨?_, ?_, ?_⟩
  · simp only [EventLoop.run, List.foldl, EventLoop.step]
    rw [nativeEventFilter_press st _ hx rfl, if_neg hprev]
    rfl
  · simp only [EventLoop.run, List.foldl, EventLoop.step]
    rw [nativeEventFilter_press st _ hx rfl, if_neg hprev]
    dsimp only
    rw [nativeEventFilter_release _ _ hx1 rfl]
    rfl
  · simp only [EventLoop.run, List.foldl, EventLoop.step]
    rw [nativeEventFilter_press st _ hx rfl, if_neg hprev]
    dsimp only
    rw [nativeEventFilter_release _ _ hx1 rfl]
    simp [debounceCheck]

theorem press_release_scenario_witness :
    (EventLoop.run ⟨x11Backend [], [], []⟩
        [LoopStep.native ⟨XCB_KEY_PRESS, 38, 1000, ControlMask ||| ShiftMask⟩,
         LoopStep.native ⟨XCB_KEY_RELEASE, 38, 1010, ControlMask ||| ShiftMask⟩,
         LoopStep.timeout]).trace
      = [Notification.activate ⟨38, (ControlMask ||| ShiftMask) &&& validModsMask⟩,
         Notification.release ⟨38, (ControlMask ||| ShiftMask) &&& validModsMask⟩] :=
  (press_release_scenario (x11Backend []) 38 (ControlMask ||| ShiftMask) 1000 1010 rfl
    (by decide)).2.2

/-- C4, as stated, fails: a release and a press of keycode 38 with the same timestamp,
delivered release first and followed by the debounce check, produce no release
notification at all (the check finds the press as latest event, of another type). -/
theorem same_stamp_release_first_counterexample :
    ¬ (activations (EventLoop.run ⟨x11Backend [], [], []⟩
          [LoopStep.native ⟨XCB_KEY_RELEASE, 38, 1000, 5⟩,
           LoopStep.native ⟨XCB_KEY_PRESS, 38, 1000, 5⟩,
           LoopStep.timeout]).trace ≤ 1
        ∧ releases (EventLoop.run ⟨x11Backend [], [], []⟩
          [LoopStep.native ⟨XCB_KEY_RELEASE, 38, 1000, 5⟩,
           LoopStep.native ⟨XCB_KEY_PRESS, 38, 1000, 5⟩,
           LoopStep.timeout]).trace = 1) := by
  decide

/-- C4, amended. A press and a release of one keycode with the same timestamp, followed by
the debounce check with no other event in between: delivered press first they produce at
most one activation and exactly one release notification; delivered release first they
produce no notification at all. -/
theorem same_stamp_pair (st : Backend) (k t mp mr : Nat) (hx : st.isX11 = true) :
    (activations (EventLoop.run ⟨st, [], []⟩
          [LoopStep.native ⟨XCB_KEY_PRESS, k, t, mp⟩,
           LoopStep.native ⟨XCB_KEY_RELEASE, k, t, mr⟩,
           LoopStep.timeout]).trace ≤ 1
        ∧ releases (EventLoop.run ⟨st, [], []⟩
          [LoopStep.native ⟨XCB_KEY_PRESS, k, t, mp⟩,
           LoopStep.native ⟨XCB_KEY_RELEASE, k, t, mr⟩,
           LoopStep.timeout]).trace = 1)
      ∧ (EventLoop.run ⟨st, [], []⟩
          [LoopStep.native ⟨XCB_KEY_RELEASE, k, t, mr⟩,
           LoopStep.native ⟨XCB_KEY_PRESS, k, t, mp⟩,
           LoopStep.timeout]).trace = [] := by
  have hx1 : ({ st with prevEvent := ⟨XCB_KEY_PRESS, k, t, mp⟩ } : Backend).isX11 = true := hx
  have hx2 : ({ st with prevEvent := ⟨XCB_KEY_RELEASE, k, t, mr⟩,
                        prevHandledEvent := ⟨XCB_KEY_RELEASE, k, t, mr⟩ } : Backend).isX11 = true := hx
  refine ⟨?_, ?_⟩
  · simp only [EventLoop.run, List.foldl, EventLoop.step]
    rw [nativeEventFilter_press st _ hx rfl]
    by_cases hdup : st.prevHandledEvent.response_type = XCB_KEY_RELEASE
        ∧ st.prevHandledEvent.time = (⟨XCB_KEY_PRESS, k, t, mp⟩ : KeyEvent).time
    · rw [if_pos hdup]
      dsimp only
      rw [nativeEventFilter_release _ _ hx1 rfl]
      simp [debounceCheck, activations, releases]
    · rw [if_neg hdup]
      dsimp only
      rw [nativeEventFilter_release _ _ hx1 rfl]
      simp [debounceCheck, activations, releases]
  · simp only [EventLoop.run, List.foldl, EventLoop.step]
    rw [nativeEventFilter_release st _ hx rfl]
    dsimp only
    rw [nativeEventFilter_press _ _ hx2 rfl]
    simp [debounceCheck, XCB_KEY_PRESS, XCB_KEY_RELEASE]

theorem same_stamp_pair_witness :
    releases (EventLoop.run ⟨x11Backend [], [], []⟩
          [LoopStep.native ⟨XCB_KEY_PRESS, 38, 1000, 5⟩,
           LoopStep.native ⟨XCB_KEY_RELEASE, 38, 1000, 5⟩,
           LoopStep.timeout]).trace = 1
      ∧ (EventLoop.run ⟨x11Backend [], [], []⟩
          [LoopStep.native ⟨XCB_KEY_RELEASE, 38, 1000, 5⟩,
           LoopStep.native ⟨XCB_KEY_PRESS, 38, 1000, 5⟩,
           LoopStep.timeout]).trace = [] :=
  have h := same_stamp_pair (x11Backend []) 38 1000 5 5 rfl
  ⟨h.1.2, h.2⟩

/-! ## Event sequences -/

theorem separated_cons (e : KeyEvent) (rest : List KeyEvent) :
    separated (e :: rest)
      = if e.response_type = XCB_KEY_RELEASE then
          LoopStep.native e :: LoopStep.timeout :: separated rest
        else
          LoopStep.native e :: separated rest := rfl

theorem run_separated (st : Backend) (tr : List Notification) (evs : List KeyEvent)
    (hx : st.isX11 = true) (hnr : noRepeatedStamp st.prevHandledEvent evs = true) :
    (EventLoop.run ⟨st, [], tr⟩ (separated evs)).trace = tr ++ traceOf evs := by
  induction evs generalizing st tr with
  | nil => simp [separated, traceOf, EventLoop.run]
  | cons e rest ih =>
    by_cases hp : e.response_type = XCB_KEY_PRESS
    · have hne : ¬ e.response_type = XCB_KEY_RELEASE := by rw [hp]; decide
      unfold noRepeatedStamp at hnr
      rw [if_pos hp] at hnr
      simp only [Bool.and_eq_true, Bool.not_eq_true', decide_eq_false_iff_not] at hnr
      have hstep : EventLoop.run ⟨st, [], tr⟩ (separated (e :: rest))
          = EventLoop.run ⟨{ st with prevEvent := e }, [],
              tr ++ [Notification.activate ⟨e.detail, e.state &&& validModsMask⟩]⟩
              (separated rest) := by
        rw [separated_cons, if_neg hne]
        simp only [EventLoop.run, List.foldl, EventLoop.step]
        rw [nativeEventFilter_press st e hx hp, if_neg hnr.1]
        rfl
      rw [hstep, ih { st with prevEvent := e } _ hx hnr.2]
      simp [traceOf, notificationsOf, hp]
    · by_cases hr : e.response_type = XCB_KEY_RELEASE
      · unfold noRepeatedStamp at hnr
        rw [if_neg hp, if_pos hr] at hnr
        have hstep : EventLoop.run ⟨st, [], tr⟩ (separated (e :: rest))
            = EventLoop.run ⟨{ st with prevEvent := e, prevHandledEvent := e }, [],
                tr ++ [Notification.release ⟨e.detail, e.state &&& validModsMask⟩]⟩
                (separated rest) := by
          rw [separated_cons, if_pos hr]
          simp only [EventLoop.run, List.foldl, EventLoop.step]
          rw [nativeEventFilter_release st e hx hr]
          simp [debounceCheck]
        rw [hstep, ih { st with prevEvent := e, prevHandledEvent := e } _ hx hnr]
        have hnote : notificationsOf e
            = [Notification.release ⟨e.detail, e.state &&& validModsMask⟩] := by
          unfold notificationsOf
          rw [if_neg hp, if_pos hr]
        simp [traceOf, hnote]
      · unfold noRepeatedStamp at hnr
        rw [if_neg hp, if_neg hr] at hnr
        have hstep : EventLoop.run ⟨st, [], tr⟩ (separated (e :: rest))
            = EventLoop.run ⟨st, [], tr⟩ (separated rest) := by
          rw [separated_cons, if_neg hr]
          simp only [EventLoop.run, List.foldl, EventLoop.step]
          rw [nativeEventFilter_other st e hp hr]
          simp
        rw [hstep, ih _ _ hx hnr]
        simp [traceOf, notificationsOf, hp, hr]

theorem run_backend (l : EventLoop) (steps : List LoopStep) (hx : l.backend.isX11 = true) :
    (l.run steps).backend.isX11 = true
      ∧ (l.run steps).backend.prevHandledEvent = lastRelease l.backend.prevHandledEvent steps := by
  induction steps generalizing l with
  | nil => exact ⟨hx, rfl⟩
  | cons step rest ih =>
    have hrun : l.run (step :: rest) = (l.step step).run rest := rfl
    have hlast : lastRelease l.backend.prevHandledEvent (step :: rest)
        = lastRelease (lastRelease l.backend.prevHandledEvent [step]) rest := rfl
    rw [hrun, hlast]
    have hone : (l.step step).backend.isX11 = true
        ∧ (l.step step).backend.prevHandledEvent
            = lastRelease l.backend.prevHandledEvent [step] := by
      cases step with
      | native m =>
        by_cases hp : m.response_type = XCB_KEY_PRESS
        · have hne : ¬ m.response_type = XCB_KEY_RELEASE := by rw [hp]; decide
          simp only [EventLoop.step, lastRelease, List.foldl, if_neg hne]
          rw [nativeEventFilter_press l.backend m hx hp]
          split <;> exact ⟨hx, rfl⟩
        · by_cases hr : m.response_type = XCB_KEY_RELEASE
          · simp only [EventLoop.step, lastRelease, List.foldl, if_pos hr]
            rw [nativeEventFilter_release l.backend m hx hr]
            exact ⟨hx, rfl⟩
          · simp only [EventLoop.step, lastRelease, List.foldl, if_neg hr]
            rw [nativeEventFilter_other l.backend m hp hr]
            exact ⟨hx, rfl⟩
      | timeout =>
        simp only [EventLoop.step, lastRelease, List.foldl]
        split <;> exact ⟨hx, rfl⟩
    obtain ⟨h1, h2⟩ := ih (l.step step) hone.1
    exact ⟨h1, by rw [h2, hone.2]⟩

/-- C5, as stated, fails: a press, a release 10 ms later and a second press 10 ms after
that, all inside the debounce window, followed by the debounce check, give two activations
of the same shortcut with no release notification between them. -/
theorem edge_triggering_counterexample :
    (EventLoop.run ⟨x11Backend [], [], []⟩
        [LoopStep.native ⟨XCB_KEY_PRESS, 38, 1000, 5⟩,
         LoopStep.native ⟨XCB_KEY_RELEASE, 38, 1010, 5⟩,
         LoopStep.native ⟨XCB_KEY_PRESS, 38, 1020, 5⟩,
         LoopStep.timeout]).trace
        = [Notification.activate ⟨38, 5⟩, Notification.activate ⟨38, 5⟩]
      ∧ edgeTriggered (EventLoop.run ⟨x11Backend [], [], []⟩
        [LoopStep.native ⟨XCB_KEY_PRESS, 38, 1000, 5⟩,
         LoopStep.native ⟨XCB_KEY_RELEASE, 38, 1010, 5⟩,
         LoopStep.native ⟨XCB_KEY_PRESS, 38, 1020, 5⟩,
         LoopStep.timeout]).trace = false := by
  decide

/-- C5, amended. For every sequence of raw events in which the debounce check of each
release fires before the next event arrives and no press carries the timestamp of the
release received last before it, the notification trace is the event sequence itself, a
press read as an activation and a release as a release notification; so it never holds two
activations of a shortcut without exactly one release of it between them whenever the raw
event sequence has that property. -/
theorem edge_triggering_separated (st : Backend) (evs : List KeyEvent) (hx : st.isX11 = true)
    (hnr : noRepeatedStamp st.prevHandledEvent evs = true)
    (hraw : edgeTriggered (traceOf evs) = true) :
    (EventLoop.run ⟨st, [], []⟩ (separated evs)).trace = traceOf evs
      ∧ edgeTriggered (EventLoop.run ⟨st, [], []⟩ (separated evs)).trace = true := by
  have h := run_separated st [] evs hx hnr
  rw [List.nil_append] at h
  exact ⟨h, by rw [h]; exact hraw⟩

theorem edge_triggering_separated_witness :
    (EventLoop.run ⟨x11Backend [], [], []⟩ (separated
        [⟨XCB_KEY_PRESS, 38, 1000, 5⟩, ⟨XCB_KEY_RELEASE, 38, 1010, 5⟩,
         ⟨XCB_KEY_PRESS, 38, 1200, 5⟩, ⟨XCB_KEY_RELEASE, 38, 1300, 5⟩])).trace
        = [Notification.activate ⟨38, 5⟩, Notification.release ⟨38, 5⟩,
           Notification.activate ⟨38, 5⟩, Notification.release ⟨38, 5⟩]
      ∧ edgeTriggered (EventLoop.run ⟨x11Backend [], [], []⟩ (separated
        [⟨XCB_KEY_PRESS, 38, 1000, 5⟩, ⟨XCB_KEY_RELEASE, 38, 1010, 5⟩,
         ⟨XCB_KEY_PRESS, 38, 1200, 5⟩, ⟨XCB_KEY_RELEASE, 38, 1300, 5⟩])).trace = true :=
  edge_triggering_separated (x11Backend [])
    [⟨XCB_KEY_PRESS, 38, 1000, 5⟩, ⟨XCB_KEY_RELEASE, 38, 1010, 5⟩,
     ⟨XCB_KEY_PRESS, 38, 1200, 5⟩, ⟨XCB_KEY_RELEASE, 38, 1300, 5⟩] rfl (by decide) (by decide)

theorem lastRelease_cons (init : KeyEvent) (step : LoopStep) (rest : List LoopStep) :
    lastRelease init (step :: rest) = lastRelease (lastRelease init [step]) rest := rfl

/-- With timestamps that never decrease, the record kept by the filter (the release
received last) and the event handled last agree on being a release stamped like a coming
press: a press that activated after the recorded release has a later timestamp. -/
theorem handledLast_agrees (b : Backend) (last : KeyEvent) (t : Nat) (steps : List LoopStep)
    (e : KeyEvent) (hx : b.isX11 = true) (hp : e.response_type = XCB_KEY_PRESS)
    (hR : b.prevHandledEvent.time ≤ t)
    (hH : last = b.prevHandledEvent
      ∨ (last.response_type = XCB_KEY_PRESS ∧ last.time ≤ t
          ∧ b.prevHandledEvent.time ≤ last.time
          ∧ ¬ (b.prevHandledEvent.response_type = XCB_KEY_RELEASE
                ∧ b.prevHandledEvent.time = last.time)))
    (hmono : stampsAscend t (steps ++ [LoopStep.native e]) = true) :
    ((lastRelease b.prevHandledEvent steps).response_type = XCB_KEY_RELEASE
        ∧ (lastRelease b.prevHandledEvent steps).time = e.time)
      ↔ ((handledLast b last steps).response_type = XCB_KEY_RELEASE
        ∧ (handledLast b last steps).time = e.time) := by
  induction steps generalizing b last t with
  | nil =>
    have hte : t ≤ e.time := by
      simpa [stampsAscend, hp] using hmono
    show (b.prevHandledEvent.response_type = XCB_KEY_RELEASE ∧ b.prevHandledEvent.time = e.time)
      ↔ (last.response_type = XCB_KEY_RELEASE ∧ last.time = e.time)
    rcases hH with h | ⟨hpress, hlt, hrl, hnot⟩
    · rw [h]
    · constructor
      · intro hrel
        exact absurd ⟨hrel.1, by omega⟩ hnot
      · intro hrel
        rw [hpress] at hrel
        exact absurd hrel.1 (by decide)
  | cons step rest ih =>
    cases step with
    | timeout =>
      exact ih b last t hx hR hH hmono
    | native m =>
      rw [lastRelease_cons]
      by_cases hmp : m.response_type = XCB_KEY_PRESS
      · have hne : ¬ m.response_type = XCB_KEY_RELEASE := by rw [hmp]; decide
        have hmono2 : t ≤ m.time ∧ stampsAscend m.time (rest ++ [LoopStep.native e]) = true := by
          simpa [stampsAscend, hmp] using hmono
        have hlr : lastRelease b.prevHandledEvent [LoopStep.native m] = b.prevHandledEvent := by
          simp [lastRelease, List.foldl, hne]
        rw [hlr]
        by_cases hdup : b.prevHandledEvent.response_type = XCB_KEY_RELEASE
            ∧ b.prevHandledEvent.time = m.time
        · have hf : nativeEventFilter b m = ⟨{ b with prevEvent := m }, false, [], none⟩ := by
            rw [nativeEventFilter_press b m hx hmp, if_pos hdup]
          have hstep : handledLast b last (LoopStep.native m :: rest)
              = handledLast { b with prevEvent := m } last rest := by
            simp [handledLast, hf]
          rw [hstep]
          refine ih { b with prevEvent := m } last m.time hx (by show b.prevHandledEvent.time ≤ _; omega)
            ?_ hmono2.2
          rcases hH with h | ⟨h1, h2, h3, h4⟩
          · exact Or.inl h
          · exact Or.inr ⟨h1, by omega, h3, h4⟩
        · have hf : nativeEventFilter b m = ⟨{ b with prevEvent := m }, false,
              [Notification.activate ⟨m.detail, m.state &&& validModsMask⟩], none⟩ := by
            rw [nativeEventFilter_press b m hx hmp, if_neg hdup]
          have hstep : handledLast b last (LoopStep.native m :: rest)
              = handledLast { b with prevEvent := m } m rest := by
            simp [handledLast, hf]
          rw [hstep]
          refine ih { b with prevEvent := m } m m.time hx (by show b.prevHandledEvent.time ≤ _; omega)
            ?_ hmono2.2
          exact Or.inr ⟨hmp, le_refl _, by show b.prevHandledEvent.time ≤ _; omega, hdup⟩
      · by_cases hmr : m.response_type = XCB_KEY_RELEASE
        · have hmono2 : t ≤ m.time ∧ stampsAscend m.time (rest ++ [LoopStep.native e]) = true := by
            simpa [stampsAscend, hmr] using hmono
          have hlr : lastRelease b.prevHandledEvent [LoopStep.native m] = m := by
            simp [lastRelease, List.foldl, hmr]
          rw [hlr]
          have hf := nativeEventFilter_release b m hx hmr
          have hstep : handledLast b last (LoopStep.native m :: rest)
              = handledLast { b with prevEvent := m, prevHandledEvent := m } m rest := by
            simp [handledLast, hf]
          rw [hstep]
          exact ih { b with prevEvent := m, prevHandledEvent := m } m m.time hx (le_refl _)
            (Or.inl rfl) hmono2.2
        · have hmono2 : stampsAscend t (rest ++ [LoopStep.native e]) = true := by
            simpa [stampsAscend, hmp, hmr] using hmono
          have hlr : lastRelease b.prevHandledEvent [LoopStep.native m] = b.prevHandledEvent := by
            simp [lastRelease, List.foldl, hmr]
          rw [hlr]
          have hf := nativeEventFilter_other b m hmp hmr
          have hstep : handledLast b last (LoopStep.native m :: rest)
              = handledLast b last rest := by
            simp [handledLast, hf]
          rw [hstep]
          exact ih b last t hx hR hH hmono2

/-- C7. After any sequence of key events and timer firings in direct-grab mode, the
last-handled record of the backend is the release event received last (presses never
update it); a key press is ignored, issuing no activation, if and only if that record is a
release event with the timestamp of the press; every other press issues its activation
for (keycode, state AND valid mask) in the same call, and no press starts a timer. When
the timestamps of the events never decrease, the record stands for the event handled last:
the press is ignored if and only if the event handled last, release or activated press,
is a release with the timestamp of the press. -/
theorem press_dedupe_rule (l : EventLoop) (steps : List LoopStep) (e : KeyEvent)
    (hx : l.backend.isX11 = true) (hp : e.response_type = XCB_KEY_PRESS) :
    (l.run steps).backend.prevHandledEvent = lastRelease l.backend.prevHandledEvent steps
      ∧ ((nativeEventFilter (l.run steps).backend e).notes = []
          ↔ ((l.run steps).backend.prevHandledEvent.response_type = XCB_KEY_RELEASE
              ∧ (l.run steps).backend.prevHandledEvent.time = e.time))
      ∧ (¬ ((l.run steps).backend.prevHandledEvent.response_type = XCB_KEY_RELEASE
              ∧ (l.run steps).backend.prevHandledEvent.time = e.time) →
          (nativeEventFilter (l.run steps).backend e).notes
            = [Notification.activate ⟨e.detail, e.state &&& validModsMask⟩])
      ∧ (nativeEventFilter (l.run steps).backend e).timer = none
      ∧ (stampsAscend l.backend.prevHandledEvent.time (steps ++ [LoopStep.native e]) = true →
          ((nativeEventFilter (l.run steps).backend e).notes = []
            ↔ ((handledLast l.backend l.backend.prevHandledEvent steps).response_type
                  = XCB_KEY_RELEASE
                ∧ (handledLast l.backend l.backend.prevHandledEvent steps).time = e.time))) := by
  obtain ⟨hx1, hlast⟩ := run_backend l steps hx
  have hiff : (nativeEventFilter (l.run steps).backend e).notes = []
      ↔ ((l.run steps).backend.prevHandledEvent.response_type = XCB_KEY_RELEASE
          ∧ (l.run steps).backend.prevHandledEvent.time = e.time) := by
    rw [nativeEventFilter_press _ e hx1 hp]
    constructor
    · intro h
      by_contra hc
      rw [if_neg hc] at h
      cases h
    · intro h
      rw [if_pos h]
  refine ⟨hlast, hiff, ?_, ?_, ?_⟩
  · intro h
    rw [nativeEventFilter_press _ e hx1 hp, if_neg h]
  · rw [nativeEventFilter_press _ e hx1 hp]
    split <;> rfl
  · intro hmono
    rw [hiff, hlast]
    exact handledLast_agrees l.backend l.backend.prevHandledEvent l.backend.prevHandledEvent.time
      steps e hx hp (le_refl _) (Or.inl rfl) hmono

theorem press_dedupe_rule_witness :
    (nativeEventFilter (EventLoop.run ⟨x11Backend [], [], []⟩
        [LoopStep.native ⟨XCB_KEY_RELEASE, 38, 1000, 5⟩]).backend
        ⟨XCB_KEY_PRESS, 38, 1000, 5⟩).notes = []
      ∧ (nativeEventFilter (EventLoop.run ⟨x11Backend [], [], []⟩
        [LoopStep.native ⟨XCB_KEY_RELEASE, 38, 1000, 5⟩]).backend
        ⟨XCB_KEY_PRESS, 38, 1000, 5⟩).timer = none
      ∧ handledLast (x11Backend []) (x11Backend []).prevHandledEvent
          [LoopStep.native ⟨XCB_KEY_RELEASE, 38, 1000, 5⟩] = ⟨XCB_KEY_RELEASE, 38, 1000, 5⟩ :=
  have h := press_dedupe_rule ⟨x11Backend [], [], []⟩
    [LoopStep.native ⟨XCB_KEY_RELEASE, 38, 1000, 5⟩] ⟨XCB_KEY_PRESS, 38, 1000, 5⟩ rfl rfl
  ⟨h.2.1.mpr (by decide), h.2.2.2.1, by decide⟩

/-! ## Broker registration -/

theorem mapFind_append_absent {β : Type} (m : List (String × β)) (k : String) (v : β)
    (h : mapFind m k = none) : mapFind (m ++ [(k, v)]) k = some v := by
  induction m with
  | nil => simp [mapFind, List.lookup]
  | cons p rest ih =>
    obtain ⟨k1, v1⟩ := p
    unfold mapFind at h ih ⊢
    rw [List.cons_append, List.lookup_cons]
    rw [List.lookup_cons] at h
    cases hk : (k == k1) with
    | true => rw [hk] at h; cases h
    | false => rw [hk] at h; exact ih h

theorem mapFind_mapInsert {β : Type} (m : List (String × β)) (k : String) (v : β) :
    mapFind (mapInsert m k v) k = some ((mapFind m k).getD v) := by
  unfold mapInsert
  cases h : mapFind m k with
  | some old => simp [h]
  | none => simpa using mapFind_append_absent m k v h

theorem setActionInAccel_mapping (env : Env) (acc : Backend × List (String × KGlobalShortcutInfo))
    (shortcut : Shortcut) :
    (setActionInAccel env acc shortcut).1.m_registerdShortcutMapping
      = acc.1.m_registerdShortcutMapping := by
  unfold setActionInAccel
  dsimp only
  split <;> rfl

theorem setActionsInAccel_mapping (env : Env) (st : Backend) (shortcuts : List Shortcut) :
    (setActionsInAccel env st shortcuts).m_registerdShortcutMapping
      = st.m_registerdShortcutMapping := by
  unfold setActionsInAccel
  generalize shortcutInfosByName env.allShortcutInfos = byName
  induction shortcuts generalizing st byName with
  | nil => rfl
  | cons sc rest ih =>
    rw [List.foldl_cons]
    have h := ih (setActionInAccel env (st, byName) sc).1 (setActionInAccel env (st, byName) sc).2
    rw [h, setActionInAccel_mapping]

theorem registerShortcut_broker (env : Env) (st : Backend) (s : NativeShortcut)
    (hx : st.isX11 = false) (hw : st.isWayland = true) :
    registerShortcut env st s
      = if env.isGlobalShortcutAvailable (keySequenceOf s) then
          (setActionsInAccel env
            { st with
              m_registerdShortcutMapping :=
                mapInsert st.m_registerdShortcutMapping
                  (getShorctIdentifier env (combinationDescription env s)) s }
            [(getShorctIdentifier env (combinationDescription env s),
              [("description", combinationDescription env s ++ " by " ++ env.applicationName),
               ("preferred_trigger", combinationDescription env s)])], true)
        else
          ({ st with error := "The shortcut " ++ combinationDescription env s
              ++ " is already in use by another application." }, false) := by
  unfold registerShortcut
  rw [if_neg (by rw [hx]; exact Bool.false_ne_true), if_pos hw]

/-- C9. On the broker path, when the broker reports the key combination of `s` as not
available, `registerShortcut` returns false, sets the error text to the message that names
the combination as already in use by another application, and changes nothing else: the
action list and the identifier map are as before and the broker is asked for nothing. -/
theorem registerShortcut_unavailable (env : Env) (st : Backend) (s : NativeShortcut)
    (hx : st.isX11 = false) (hw : st.isWayland = true)
    (hna : env.isGlobalShortcutAvailable (keySequenceOf s) = false) :
    (registerShortcut env st s).2 = false
      ∧ (registerShortcut env st s).1.error
          = "The shortcut " ++ env.keySequenceToString (keySequenceOf s)
              ++ " is already in use by another application."
      ∧ (registerShortcut env st s).1.m_shortcuts = st.m_shortcuts
      ∧ (registerShortcut env st s).1.m_registerdShortcutMapping = st.m_registerdShortcutMapping
      ∧ (registerShortcut env st s).1
          = { st with error := (registerShortcut env st s).1.error } := by
  rw [registerShortcut_broker env st s hx hw, hna]
  exact ⟨rfl, rfl, rfl, rfl, rfl⟩

theorem registerShortcut_unavailable_witness :
    (registerShortcut busyEnv (waylandBackend [("other", ⟨0x42, 0⟩)]) ⟨0x41, ControlMask⟩).2 = false
      ∧ (registerShortcut busyEnv (waylandBackend [("other", ⟨0x42, 0⟩)])
          ⟨0x41, ControlMask⟩).1.m_registerdShortcutMapping = [("other", ⟨0x42, 0⟩)] :=
  have h := registerShortcut_unavailable busyEnv (waylandBackend [("other", ⟨0x42, 0⟩)])
    ⟨0x41, ControlMask⟩ rfl rfl rfl
  ⟨h.1, h.2.2.2.1⟩

/-- C10, as stated, fails: after Ctrl+A is registered as (0x41, ControlMask), a second
registration of (0x41, ControlMask|LockMask), which has the same key sequence and so the
same identifier, returns true while the identifier stays mapped to the first shortcut. -/
theorem broker_mapping_counterexample :
    (registerShortcut sampleEnv
        (registerShortcut sampleEnv (waylandBackend []) ⟨0x41, ControlMask⟩).1
        ⟨0x41, ControlMask ||| LockMask⟩).2 = true
      ∧ mapFind (registerShortcut sampleEnv
          (registerShortcut sampleEnv (waylandBackend []) ⟨0x41, ControlMask⟩).1
          ⟨0x41, ControlMask ||| LockMask⟩).1.m_registerdShortcutMapping
          (getShorctIdentifier sampleEnv
            (combinationDescription sampleEnv ⟨0x41, ControlMask ||| LockMask⟩))
        = some ⟨0x41, ControlMask⟩
      ∧ (⟨0x41, ControlMask⟩ : NativeShortcut) ≠ ⟨0x41, ControlMask ||| LockMask⟩ := by
  decide

/-- C10, amended. On the broker path, after a `registerShortcut(s)` call that returns
true, the identifier derived from `s` is mapped: to `s` itself when the identifier was not
in the map before the call, and otherwise to the shortcut it was already mapped to (the
insertion keeps an existing entry). -/
theorem registerShortcut_records_mapping (env : Env) (st : Backend) (s : NativeShortcut)
    (hx : st.isX11 = false) (hw : st.isWayland = true)
    (hok : (registerShortcut env st s).2 = true) :
    mapFind (registerShortcut env st s).1.m_registerdShortcutMapping
        (getShorctIdentifier env (combinationDescription env s))
        = some ((mapFind st.m_registerdShortcutMapping
            (getShorctIdentifier env (combinationDescription env s))).getD s)
      ∧ (mapFind st.m_registerdShortcutMapping
            (getShorctIdentifier env (combinationDescription env s)) = none →
          mapFind (registerShortcut env st s).1.m_registerdShortcutMapping
            (getShorctIdentifier env (combinationDescription env s)) = some s) := by
  rw [registerShortcut_broker env st s hx hw] at hok ⊢
  cases hav : env.isGlobalShortcutAvailable (keySequenceOf s) with
  | false => rw [hav] at hok; exact Bool.noConfusion hok
  | true =>
    simp only [if_true]
    rw [setActionsInAccel_mapping]
    have hfind := mapFind_mapInsert st.m_registerdShortcutMapping
      (getShorctIdentifier env (combinationDescription env s)) s
    refine ⟨hfind, ?_⟩
    intro hnone
    rw [hnone] at hfind
    exact hfind

theorem registerShortcut_records_mapping_witness :
    mapFind (registerShortcut sampleEnv (waylandBackend []) ⟨0x41, ControlMask⟩).1.m_registerdShortcutMapping
        (getShorctIdentifier sampleEnv (combinationDescription sampleEnv ⟨0x41, ControlMask⟩))
      = some ⟨0x41, ControlMask⟩ :=
  (registerShortcut_records_mapping sampleEnv (waylandBackend []) ⟨0x41, ControlMask⟩
    rfl rfl rfl).2 rfl

/-! ## The interceptor -/

/-- C17. For every error event the interceptor returns 1 exactly when the error code is
BadAccess, BadValue or BadWindow and the request code is 33 or 34; then it sets the
recorded-error flag and stores the platform text of the error code, changing nothing else.
For every other pair it returns 0 and leaves the whole state, flag and text included, as it
was. -/
theorem handleError_classifies (env : Env) (st : Backend) (e : XErrorEvent) :
    ((handleError env st e).2 = 1
        ↔ ((e.error_code = BadAccess ∨ e.error_code = BadValue ∨ e.error_code = BadWindow)
            ∧ (e.request_code = 33 ∨ e.request_code = 34)))
      ∧ ((handleError env st e).2 = 1 →
          (handleError env st e).1
            = { st with hasError := true, errorString := env.XGetErrorText e.error_code })
      ∧ ((handleError env st e).2 ≠ 1 →
          (handleError env st e).2 = 0 ∧ (handleError env st e).1 = st) := by
  have hc : classified e = true
      ↔ ((e.error_code = BadAccess ∨ e.error_code = BadValue ∨ e.error_code = BadWindow)
          ∧ (e.request_code = 33 ∨ e.request_code = 34)) := by
    simp [classified, or_assoc]
  unfold handleError
  by_cases h : classified e = true
  · rw [if_pos h]
    exact ⟨⟨fun _ => hc.mp h, fun _ => rfl⟩, fun _ => rfl, fun hne => absurd rfl hne⟩
  · rw [if_neg h]
    refine ⟨⟨fun h1 => absurd h1 Nat.zero_ne_one, fun h2 => absurd (hc.mpr h2) h⟩, ?_, ?_⟩
    · intro h1
      exact absurd h1 Nat.zero_ne_one
    · intro _
      exact ⟨rfl, rfl⟩

/-- C15. Every direct-grab `registerShortcut` or `unregisterShortcut` call that reaches the
interceptor leaves the process-wide error handler as it found it, the recorded-error flag
false and the recorded text empty, whether it succeeds or fails; and inside a failed
registration the nested rollback call leaves the handler that was installed when it
started, the interceptor of the enclosing call, with flag and text cleared. -/
theorem interceptor_is_scoped (env : Env) (st : Backend) (s : NativeShortcut)
    (hx : st.isX11 = true) (hd : st.display = true) :
    (st.x11Interface = true →
        (registerShortcut env st s).1.xErrorHandler = st.xErrorHandler
          ∧ (registerShortcut env st s).1.hasError = false
          ∧ (registerShortcut env st s).1.errorString = "")
      ∧ ((unregisterShortcut env st s).1.xErrorHandler = st.xErrorHandler
          ∧ (unregisterShortcut env st s).1.hasError = false
          ∧ (unregisterShortcut env st s).1.errorString = "")
      ∧ ((afterGrabBurst env st s).hasError = true →
          (unregisterShortcut env
              { afterGrabBurst env st s with error := (afterGrabBurst env st s).errorString } s).1.xErrorHandler
              = XErrorHandler.hotkey
            ∧ (unregisterShortcut env
              { afterGrabBurst env st s with error := (afterGrabBurst env st s).errorString } s).1.hasError
              = false
            ∧ (unregisterShortcut env
              { afterGrabBurst env st s with error := (afterGrabBurst env st s).errorString } s).1.errorString
              = "") := by
  have hun : ∀ b : Backend, b.isX11 = true → b.display = true →
      (unregisterShortcut env b s).1.xErrorHandler = b.xErrorHandler
        ∧ (unregisterShortcut env b s).1.hasError = false
        ∧ (unregisterShortcut env b s).1.errorString = "" := by
    intro b hbx hbd
    rw [unregisterShortcut_x11 env b s hbx hbd]
    split <;> exact ⟨rfl, rfl, rfl⟩
  refine ⟨?_, hun st hx hd, ?_⟩
  · intro hi
    rw [registerShortcut_x11 env st s hx hd hi]
    split <;> exact ⟨rfl, rfl, rfl⟩
  · intro _
    have hgx : (afterGrabBurst env st s).isX11 = true := by
      rw [afterGrabBurst_eq]; exact hx
    have hgd : (afterGrabBurst env st s).display = true := by
      rw [afterGrabBurst_eq]; exact hd
    have hgh : (afterGrabBurst env st s).xErrorHandler = XErrorHandler.hotkey := by
      rw [afterGrabBurst_eq]
    have h := hun { afterGrabBurst env st s with error := (afterGrabBurst env st s).errorString }
      hgx hgd
    exact ⟨h.1.trans hgh, h.2.1, h.2.2⟩

theorem interceptor_is_scoped_witness :
    ((registerShortcut sampleEnv (x11Backend [[⟨BadAccess, 33⟩]]) ⟨38, 5⟩).1.xErrorHandler
          = XErrorHandler.other 0
        ∧ (registerShortcut sampleEnv (x11Backend [[⟨BadAccess, 33⟩]]) ⟨38, 5⟩).1.hasError = false
        ∧ (registerShortcut sampleEnv (x11Backend [[⟨BadAccess, 33⟩]]) ⟨38, 5⟩).1.errorString = "")
      ∧ (registerShortcut sampleEnv (x11Backend [[⟨BadAccess, 33⟩]]) ⟨38, 5⟩).2 = false :=
  ⟨(interceptor_is_scoped sampleEnv (x11Backend [[⟨BadAccess, 33⟩]]) ⟨38, 5⟩ rfl rfl).1 rfl,
    by decide⟩

/-! ## Broker signals -/

/-- C13. A pressed (released) signal with component id `c` and action id `a` issues exactly
one activation (release) for the NativeShortcut stored under `a` in the identifier map when
`c` is this backend's component name and `a` is in the map; when `c` differs or `a` is not
in the map it issues nothing; in every case the backend state is unchanged. -/
theorem broker_signal_dispatch (env : Env) (st : Backend) (c a : String) (timestamp : Int) :
    (globalShortcutPressed env st c a timestamp).1 = st
      ∧ (globalShortcutReleased env st c a timestamp).1 = st
      ∧ (∀ s, c = componentName env → mapFind st.m_registerdShortcutMapping a = some s →
          (globalShortcutPressed env st c a timestamp).2 = [Notification.activate s]
            ∧ (globalShortcutReleased env st c a timestamp).2 = [Notification.release s])
      ∧ (c ≠ componentName env ∨ mapFind st.m_registerdShortcutMapping a = none →
          (globalShortcutPressed env st c a timestamp).2 = []
            ∧ (globalShortcutReleased env st c a timestamp).2 = []) := by
  unfold globalShortcutPressed globalShortcutReleased
  by_cases hc : c = componentName env
  · rw [if_neg (not_not.mpr hc), if_neg (not_not.mpr hc)]
    cases hf : mapFind st.m_registerdShortcutMapping a with
    | none =>
      refine ⟨rfl, rfl, ?_, ?_⟩
      · intro s _ hs; cases hs
      · intro _; exact ⟨rfl, rfl⟩
    | some s0 =>
      refine ⟨rfl, rfl, ?_, ?_⟩
      · intro s _ hs
        cases hs
        exact ⟨rfl, rfl⟩
      · intro h
        rcases h with h | h
        · exact absurd hc h
        · cases h
  · rw [if_pos hc, if_pos hc]
    refine ⟨rfl, rfl, ?_, ?_⟩
    · intro s h _; exact absurd h hc
    · intro _; exact ⟨rfl, rfl⟩

/-! ## Unregistration -/

theorem mapErase_cons_eq {β : Type} (k : String) (v : β) (rest : List (String × β)) :
    mapErase ((k, v) :: rest) k = mapErase rest k := by
  simp [mapErase]

theorem mapErase_cons_ne {β : Type} (k k1 : String) (v : β) (rest : List (String × β))
    (h : k1 ≠ k) : mapErase ((k1, v) :: rest) k = (k1, v) :: mapErase rest k := by
  simp [mapErase, h]

theorem mapFind_cons_eq {β : Type} (k : String) (v : β) (rest : List (String × β)) :
    mapFind ((k, v) :: rest) k = some v := by
  simp [mapFind, List.lookup]

theorem mapFind_cons_ne {β : Type} (k k1 : String) (v : β) (rest : List (String × β))
    (h : k ≠ k1) : mapFind ((k1, v) :: rest) k = mapFind rest k := by
  have hb : (k == k1) = false := by simpa using h
  simp [mapFind, List.lookup, hb]

theorem mapFind_mapErase_self {β : Type} (m : List (String × β)) (k : String) :
    mapFind (mapErase m k) k = none := by
  induction m with
  | nil => rfl
  | cons p rest ih =>
    obtain ⟨k1, v1⟩ := p
    by_cases h : k1 = k
    · rw [h, mapErase_cons_eq]
      exact ih
    · rw [mapErase_cons_ne k k1 v1 rest h, mapFind_cons_ne k k1 v1 _ (fun hk => h hk.symm)]
      exact ih

theorem mapFind_mapErase_other {β : Type} (m : List (String × β)) (k k1 : String) (h : k1 ≠ k) :
    mapFind (mapErase m k) k1 = mapFind m k1 := by
  induction m with
  | nil => rfl
  | cons p rest ih =>
    obtain ⟨k2, v2⟩ := p
    by_cases h2 : k2 = k
    · rw [h2, mapErase_cons_eq, mapFind_cons_ne k1 k v2 rest h]
      exact ih
    · rw [mapErase_cons_ne k k2 v2 rest h2]
      by_cases h3 : k1 = k2
      · rw [h3, mapFind_cons_eq, mapFind_cons_eq]
      · rw [mapFind_cons_ne k1 k2 v2 _ h3, mapFind_cons_ne k1 k2 v2 _ h3]
        exact ih

theorem mapErase_absent {β : Type} (m : List (String × β)) (k : String)
    (h : mapFind m k = none) : mapErase m k = m := by
  induction m with
  | nil => rfl
  | cons p rest ih =>
    obtain ⟨k1, v1⟩ := p
    by_cases hk : k1 = k
    · rw [hk, mapFind_cons_eq] at h
      cases h
    · rw [mapFind_cons_ne k k1 v1 rest (fun e => hk e.symm)] at h
      rw [mapErase_cons_ne k k1 v1 rest hk, ih h]

theorem unregisterShortcut_broker (env : Env) (st : Backend) (s : NativeShortcut)
    (hx : st.isX11 = false) (hw : st.isWayland = true) :
    unregisterShortcut env st s
      = ({ st with
            brokerCalls :=
              match mapFind st.m_shortcuts (getShorctIdentifier env (combinationDescription env s)) with
              | some _ => st.brokerCalls
                  ++ [BrokerCall.removeAllShortcuts
                        (getShorctIdentifier env (combinationDescription env s))]
              | none => st.brokerCalls,
            m_shortcuts :=
              mapErase st.m_shortcuts (getShorctIdentifier env (combinationDescription env s)),
            m_registerdShortcutMapping :=
              mapErase st.m_registerdShortcutMapping
                (getShorctIdentifier env (combinationDescription env s)) }, true) := by
  unfold unregisterShortcut
  rw [if_neg (by rw [hx]; exact Bool.false_ne_true), if_pos hw]
  dsimp only
  cases h : mapFind st.m_shortcuts (getShorctIdentifier env (combinationDescription env s)) with
  | none =>
    dsimp only
    rw [mapErase_absent _ _ h]
  | some a => rfl

/-- C12. On the broker path `unregisterShortcut(s)` returns true and leaves the error text
as it was, for every state; afterwards the derived identifier is in neither the action list
nor the identifier map and every other identifier reads as before; a second call returns
true and leaves the state, the log of broker calls included, unchanged; and when the
identifier was in neither map the first call already changes nothing. -/
theorem unregisterShortcut_idempotent (env : Env) (st : Backend) (s : NativeShortcut)
    (hx : st.isX11 = false) (hw : st.isWayland = true) :
    (unregisterShortcut env st s).2 = true
      ∧ (unregisterShortcut env st s).1.error = st.error
      ∧ mapFind (unregisterShortcut env st s).1.m_shortcuts (identifierOf env s) = none
      ∧ mapFind (unregisterShortcut env st s).1.m_registerdShortcutMapping (identifierOf env s)
          = none
      ∧ (∀ k, k ≠ identifierOf env s →
          mapFind (unregisterShortcut env st s).1.m_shortcuts k = mapFind st.m_shortcuts k
            ∧ mapFind (unregisterShortcut env st s).1.m_registerdShortcutMapping k
                = mapFind st.m_registerdShortcutMapping k)
      ∧ unregisterShortcut env (unregisterShortcut env st s).1 s
          = ((unregisterShortcut env st s).1, true)
      ∧ (mapFind st.m_shortcuts (identifierOf env s) = none →
          (unregisterShortcut env st s).1.brokerCalls = st.brokerCalls)
      ∧ (mapFind st.m_shortcuts (identifierOf env s) = none →
          mapFind st.m_registerdShortcutMapping (identifierOf env s) = none →
          (unregisterShortcut env st s).1 = st) := by
  have h1 := unregisterShortcut_broker env st s hx hw
  have hx2 : (unregisterShortcut env st s).1.isX11 = false := by rw [h1]; exact hx
  have hw2 : (unregisterShortcut env st s).1.isWayland = true := by rw [h1]; exact hw
  have hs : mapFind (unregisterShortcut env st s).1.m_shortcuts (identifierOf env s) = none := by
    rw [h1]; exact mapFind_mapErase_self _ _
  have hm : mapFind (unregisterShortcut env st s).1.m_registerdShortcutMapping (identifierOf env s)
      = none := by
    rw [h1]; exact mapFind_mapErase_self _ _
  refine ⟨by rw [h1], by rw [h1], hs, hm, ?_, ?_, ?_, ?_⟩
  · intro k hk
    rw [h1]
    exact ⟨mapFind_mapErase_other _ _ _ hk, mapFind_mapErase_other _ _ _ hk⟩
  · rw [unregisterShortcut_broker env _ s hx2 hw2]
    have hs1 : mapFind (unregisterShortcut env st s).1.m_shortcuts
        (getShorctIdentifier env (combinationDescription env s)) = none := hs
    have hm1 : mapFind (unregisterShortcut env st s).1.m_registerdShortcutMapping
        (getShorctIdentifier env (combinationDescription env s)) = none := hm
    rw [hs1]
    dsimp only
    rw [mapErase_absent _ _ hs1, mapErase_absent _ _ hm1]
  · intro hnone
    rw [h1]
    have hn : mapFind st.m_shortcuts (getShorctIdentifier env (combinationDescription env s))
        = none := hnone
    dsimp only
    rw [hn]
  · intro hnone hnone2
    rw [h1]
    have hn : mapFind st.m_shortcuts (getShorctIdentifier env (combinationDescription env s))
        = none := hnone
    have hn2 : mapFind st.m_registerdShortcutMapping
        (getShorctIdentifier env (combinationDescription env s)) = none := hnone2
    dsimp only
    rw [hn]
    dsimp only
    rw [mapErase_absent _ _ hn, mapErase_absent _ _ hn2]

theorem unregisterShortcut_idempotent_witness :
    (unregisterShortcut sampleEnv
        (waylandBackend [(identifierOf sampleEnv ⟨0x41, ControlMask⟩, ⟨0x41, ControlMask⟩)])
        ⟨0x41, ControlMask⟩).2 = true
      ∧ mapFind (unregisterShortcut sampleEnv
        (waylandBackend [(identifierOf sampleEnv ⟨0x41, ControlMask⟩, ⟨0x41, ControlMask⟩)])
        ⟨0x41, ControlMask⟩).1.m_registerdShortcutMapping (identifierOf sampleEnv ⟨0x41, ControlMask⟩)
          = none :=
  have h := unregisterShortcut_idempotent sampleEnv
    (waylandBackend [(identifierOf sampleEnv ⟨0x41, ControlMask⟩, ⟨0x41, ControlMask⟩)])
    ⟨0x41, ControlMask⟩ rfl rfl
  ⟨h.1, h.2.2.2.1⟩

theorem setActionInAccel_flags (env : Env) (acc : Backend × List (String × KGlobalShortcutInfo))
    (shortcut : Shortcut) :
    (setActionInAccel env acc shortcut).1.isX11 = acc.1.isX11
      ∧ (setActionInAccel env acc shortcut).1.isWayland = acc.1.isWayland := by
  unfold setActionInAccel
  dsimp only
  split <;> exact ⟨rfl, rfl⟩

theorem setActionsInAccel_flags (env : Env) (st : Backend) (shortcuts : List Shortcut) :
    (setActionsInAccel env st shortcuts).isX11 = st.isX11
      ∧ (setActionsInAccel env st shortcuts).isWayland = st.isWayland := by
  unfold setActionsInAccel
  generalize shortcutInfosByName env.allShortcutInfos = byName
  induction shortcuts generalizing st byName with
  | nil => exact ⟨rfl, rfl⟩
  | cons sc rest ih =>
    rw [List.foldl_cons]
    have h := ih (setActionInAccel env (st, byName) sc).1 (setActionInAccel env (st, byName) sc).2
    have hf := setActionInAccel_flags env (st, byName) sc
    exact ⟨h.1.trans hf.1, h.2.trans hf.2⟩

theorem registerShortcut_broker_flags (env : Env) (st : Backend) (s : NativeShortcut)
    (hx : st.isX11 = false) (hw : st.isWayland = true) :
    (registerShortcut env st s).1.isX11 = false
      ∧ (registerShortcut env st s).1.isWayland = true := by
  rw [registerShortcut_broker env st s hx hw]
  split
  · have h := setActionsInAccel_flags env
      { st with
        m_registerdShortcutMapping :=
          mapInsert st.m_registerdShortcutMapping
            (getShorctIdentifier env (combinationDescription env s)) s }
      [(getShorctIdentifier env (combinationDescription env s),
        [("description", combinationDescription env s ++ " by " ++ env.applicationName),
         ("preferred_trigger", combinationDescription env s)])]
    exact ⟨h.1.trans hx, h.2.trans hw⟩
  · exact ⟨hx, hw⟩

theorem unregisterShortcut_x11_requests (env : Env) (b : Backend) (s : NativeShortcut)
    (hx : b.isX11 = true) (hd : b.display = true) :
    (unregisterShortcut env b s).1.xRequests
      = b.xRequests ++ ungrabVariants s ++ [XRequest.sync] := by
  have hu : (ungrabBurst env (errorHandlerInstall b).1 s).xRequests
      = b.xRequests ++ ungrabVariants s ++ [XRequest.sync] := by
    unfold errorHandlerInstall
    rw [ungrabBurst_hotkey env _ s rfl]
  rw [unregisterShortcut_x11 env b s hx hd]
  split <;> exact hu

/-- C11. A `registerShortcut(s)` that returns true, followed at once by
`unregisterShortcut(s)`, leaves nothing of `s` behind on either path: on the broker path
the derived identifier is in neither the action list nor the identifier map; on the
direct-grab path the two calls have sent the four grabs and then the four ungrabs of the
same (keycode, modifier OR special) variants, so none of the variants is left grabbed. -/
theorem register_then_unregister (env : Env) (st : Backend) (s : NativeShortcut)
    (hmode : (st.isX11 = true ∧ st.display = true ∧ st.x11Interface = true)
      ∨ (st.isX11 = false ∧ st.isWayland = true))
    (hok : (registerShortcut env st s).2 = true) :
    (st.isX11 = false →
        mapFind (unregisterShortcut env (registerShortcut env st s).1 s).1.m_shortcuts
            (identifierOf env s) = none
          ∧ mapFind (unregisterShortcut env (registerShortcut env st s).1 s).1.m_registerdShortcutMapping
            (identifierOf env s) = none)
      ∧ (st.isX11 = true →
        (unregisterShortcut env (registerShortcut env st s).1 s).1.xRequests
            = st.xRequests ++ grabVariants s ++ [XRequest.sync] ++ ungrabVariants s
                ++ [XRequest.sync]
          ∧ ∀ sp ∈ specialModifiers,
              grabbed (unregisterShortcut env (registerShortcut env st s).1 s).1.xRequests
                s.key (s.modifier ||| sp) = false) := by
  rcases hmode with ⟨hx, hd, hi⟩ | ⟨hx, hw⟩
  · refine ⟨fun h => absurd (hx.symm.trans h) (by decide), fun _ => ?_⟩
    have hno : (afterGrabBurst env st s).hasError = false := by
      cases hh : (afterGrabBurst env st s).hasError with
      | false => rfl
      | true =>
        rw [registerShortcut_failed env st s hx hd hi hh] at hok
        exact Bool.noConfusion hok
    have hreg : registerShortcut env st s
        = (errorHandlerRestore (afterGrabBurst env st s) st.xErrorHandler, true) := by
      rw [registerShortcut_x11 env st s hx hd hi, hno]
      rfl
    have hx1 : (errorHandlerRestore (afterGrabBurst env st s) st.xErrorHandler).isX11 = true := by
      rw [afterGrabBurst_eq]; exact hx
    have hd1 : (errorHandlerRestore (afterGrabBurst env st s) st.xErrorHandler).display = true := by
      rw [afterGrabBurst_eq]; exact hd
    have hr1 : (errorHandlerRestore (afterGrabBurst env st s) st.xErrorHandler).xRequests
        = st.xRequests ++ grabVariants s ++ [XRequest.sync] := by
      rw [afterGrabBurst_eq]; rfl
    have hreq : (unregisterShortcut env (registerShortcut env st s).1 s).1.xRequests
        = st.xRequests ++ grabVariants s ++ [XRequest.sync] ++ ungrabVariants s
            ++ [XRequest.sync] := by
      rw [hreg]
      rw [unregisterShortcut_x11_requests env _ s hx1 hd1, hr1]
    refine ⟨hreq, ?_⟩
    intro sp hsp
    rw [hreq]
    unfold grabbed
    rw [List.append_assoc, List.foldl_append]
    apply grabbed_fold_ungrab
    · intro r hr
      rcases List.mem_append.mp hr with h | h
      · obtain ⟨x, _, rfl⟩ := List.mem_map.mp h
        rfl
      · rw [List.mem_singleton.mp h]; rfl
    · exact List.mem_append_left _ (List.mem_map.mpr ⟨sp, hsp, rfl⟩)
  · refine ⟨fun _ => ?_, fun h => absurd (hx.symm.trans h) (by decide)⟩
    obtain ⟨hx1, hw1⟩ := registerShortcut_broker_flags env st s hx hw
    rw [unregisterShortcut_broker env _ s hx1 hw1]
    exact ⟨mapFind_mapErase_self _ _, mapFind_mapErase_self _ _⟩

theorem register_then_unregister_witness :
    (mapFind (unregisterShortcut sampleEnv
          (registerShortcut sampleEnv (waylandBackend []) ⟨0x41, ControlMask⟩).1
          ⟨0x41, ControlMask⟩).1.m_shortcuts (identifierOf sampleEnv ⟨0x41, ControlMask⟩) = none
        ∧ mapFind (unregisterShortcut sampleEnv
          (registerShortcut sampleEnv (waylandBackend []) ⟨0x41, ControlMask⟩).1
          ⟨0x41, ControlMask⟩).1.m_registerdShortcutMapping
            (identifierOf sampleEnv ⟨0x41, ControlMask⟩) = none)
      ∧ (unregisterShortcut sampleEnv
          (registerShortcut sampleEnv (x11Backend []) ⟨38, 5⟩).1 ⟨38, 5⟩).1.xRequests
        = [] ++ grabVariants ⟨38, 5⟩ ++ [XRequest.sync] ++ ungrabVariants ⟨38, 5⟩
            ++ [XRequest.sync] :=
  ⟨(register_then_unregister sampleEnv (waylandBackend []) ⟨0x41, ControlMask⟩
      (Or.inr ⟨rfl, rfl⟩) rfl).1 rfl,
   ((register_then_unregister sampleEnv (x11Backend []) ⟨38, 5⟩
      (Or.inl ⟨rfl, rfl, rfl⟩) rfl).2 rfl).1⟩

/-! ## Modifier conversion -/

theorem and_two_pow_cases (m k : Nat) : m &&& 2 ^ k = 0 ∨ m &&& 2 ^ k = 2 ^ k := by
  cases hb : m.testBit k with
  | false =>
    left
    apply Nat.eq_of_testBit_eq
    intro i
    rw [Nat.testBit_and, Nat.testBit_two_pow, Nat.zero_testBit]
    by_cases hki : k = i
    · rw [← hki, hb]; rfl
    · simp [hki]
  | true =>
    right
    apply Nat.eq_of_testBit_eq
    intro i
    rw [Nat.testBit_and, Nat.testBit_two_pow]
    by_cases hki : k = i
    · rw [← hki, hb]; simp
    · simp [hki]

/-- C18. `nativeModifiers` always stores true in `ok` and returns a mask within
ShiftMask|ControlMask|Mod1Mask|Mod4Mask. Converting any native mask `m` to Qt modifiers as
the broker branches do and applying `nativeModifiers` gives `m` AND the valid mask;
applying `nativeModifiers` to any Qt modifier set `q` and converting back gives exactly the
Shift, Control, Alt and Meta members of `q`. -/
theorem modifier_round_trip (m q : Nat) :
    (nativeModifiers q).2 = true
      ∧ (nativeModifiers q).1 &&& validModsMask = (nativeModifiers q).1
      ∧ (nativeModifiers (qtModifiers m)).1 = m &&& validModsMask
      ∧ qtModifiers (nativeModifiers q).1 = q &&& qtModsMask := by
  have m1 : m &&& ShiftMask = 0 ∨ m &&& ShiftMask = ShiftMask := and_two_pow_cases m 0
  have m2 : m &&& ControlMask = 0 ∨ m &&& ControlMask = ControlMask := and_two_pow_cases m 2
  have m3 : m &&& Mod1Mask = 0 ∨ m &&& Mod1Mask = Mod1Mask := and_two_pow_cases m 3
  have m4 : m &&& Mod4Mask = 0 ∨ m &&& Mod4Mask = Mod4Mask := and_two_pow_cases m 6
  have q1 : q &&& ShiftModifier = 0 ∨ q &&& ShiftModifier = ShiftModifier :=
    and_two_pow_cases q 25
  have q2 : q &&& ControlModifier = 0 ∨ q &&& ControlModifier = ControlModifier :=
    and_two_pow_cases q 26
  have q3 : q &&& AltModifier = 0 ∨ q &&& AltModifier = AltModifier := and_two_pow_cases q 27
  have q4 : q &&& MetaModifier = 0 ∨ q &&& MetaModifier = MetaModifier :=
    and_two_pow_cases q 28
  have hv : m &&& validModsMask
      = (m &&& ShiftMask) ||| (m &&& ControlMask) ||| (m &&& Mod1Mask) ||| (m &&& Mod4Mask) := by
    unfold validModsMask
    rw [Nat.and_or_distrib_left, Nat.and_or_distrib_left, Nat.and_or_distrib_left]
  have hqm : q &&& qtModsMask
      = (q &&& ShiftModifier) ||| (q &&& ControlModifier) ||| (q &&& AltModifier)
          ||| (q &&& MetaModifier) := by
    unfold qtModsMask
    rw [Nat.and_or_distrib_left, Nat.and_or_distrib_left, Nat.and_or_distrib_left]
  refine ⟨rfl, ?_, ?_, ?_⟩
  · unfold nativeModifiers
    rcases q1 with h1 | h1 <;> rcases q2 with h2 | h2 <;> rcases q3 with h3 | h3 <;>
      rcases q4 with h4 | h4 <;> simp only [h1, h2, h3, h4] <;> decide
  · rw [hv]
    unfold qtModifiers
    rcases m1 with h1 | h1 <;> rcases m2 with h2 | h2 <;> rcases m3 with h3 | h3 <;>
      rcases m4 with h4 | h4 <;> simp only [h1, h2, h3, h4] <;> decide
  · rw [hqm]
    unfold nativeModifiers
    rcases q1 with h1 | h1 <;> rcases q2 with h2 | h2 <;> rcases q3 with h3 | h3 <;>
      rcases q4 with h4 | h4 <;> simp only [h1, h2, h3, h4] <;> decide

/-! ## Startup reload -/

theorem mapSet_absent {β : Type} (m : List (String × β)) (k : String) (v : β)
    (h : mapFind m k = none) : mapSet m k v = m ++ [(k, v)] := by
  induction m with
  | nil => rfl
  | cons p rest ih =>
    obtain ⟨k1, v1⟩ := p
    by_cases hk : k1 = k
    · rw [hk, mapFind_cons_eq] at h
      cases h
    · rw [mapFind_cons_ne k k1 v1 rest (fun e => hk e.symm)] at h
      have hb : (k1 == k) = false := by simpa using hk
      show (if (k1 == k) = true then (k, v) :: rest else (k1, v1) :: mapSet rest k v) = _
      rw [hb, ih h]
      rfl

theorem mapFind_append_other {β : Type} (m : List (String × β)) (k k1 : String) (v : β)
    (hne : k1 ≠ k) (h : mapFind m k1 = none) : mapFind (m ++ [(k, v)]) k1 = none := by
  induction m with
  | nil => rw [List.nil_append, mapFind_cons_ne k1 k v [] hne]; rfl
  | cons p rest ih =>
    obtain ⟨k2, v2⟩ := p
    by_cases hk : k1 = k2
    · rw [hk, mapFind_cons_eq] at h
      cases h
    · rw [mapFind_cons_ne k1 k2 v2 rest hk] at h
      rw [List.cons_append, mapFind_cons_ne k1 k2 v2 _ hk]
      exact ih h

theorem infosByName_fold (acc : List (String × KGlobalShortcutInfo))
    (infos : List KGlobalShortcutInfo)
    (hnodup : (infos.map KGlobalShortcutInfo.uniqueName).Nodup)
    (hfresh : ∀ i ∈ infos, mapFind acc i.uniqueName = none) :
    infos.foldl (fun h info => mapSet h info.uniqueName info) acc
      = acc ++ infos.map (fun i => (i.uniqueName, i)) := by
  induction infos generalizing acc with
  | nil => simp
  | cons i rest ih =>
    rw [List.map_cons, List.nodup_cons] at hnodup
    rw [List.foldl_cons, mapSet_absent acc _ _ (hfresh i (List.mem_cons_self _ _))]
    rw [ih _ hnodup.2]
    · simp
    · intro j hj
      have hne : j.uniqueName ≠ i.uniqueName := by
        intro he
        exact hnodup.1 (he ▸ List.mem_map_of_mem _ hj)
      exact mapFind_append_other acc _ _ _ hne (hfresh j (List.mem_cons_of_mem _ hj))

theorem loadActions_fold (env : Env) (st : Backend) (infos : List KGlobalShortcutInfo)
    (hnodup : (infos.map KGlobalShortcutInfo.uniqueName).Nodup)
    (hfresh : ∀ i ∈ infos, mapFind st.m_shortcuts i.uniqueName = none) :
    ((infos.map (fun i => (i.uniqueName, i))).foldl (loadActionFromAccel env) st).m_shortcuts
      = st.m_shortcuts ++ infos.map (fun i => (i.uniqueName, reloadedAction env i)) := by
  induction infos generalizing st with
  | nil => simp
  | cons i rest ih =>
    rw [List.map_cons, List.nodup_cons] at hnodup
    have hi : mapFind st.m_shortcuts i.uniqueName = none := hfresh i (List.mem_cons_self _ _)
    have hstep : (loadActionFromAccel env st (i.uniqueName, i)).m_shortcuts
        = st.m_shortcuts ++ [(i.uniqueName, reloadedAction env i)] := by
      unfold loadActionFromAccel
      dsimp only
      rw [mapSet_absent _ _ _ hi]
      rfl
    rw [List.map_cons, List.foldl_cons, ih _ hnodup.2]
    · rw [hstep]
      simp
    · intro j hj
      have hne : j.uniqueName ≠ i.uniqueName := by
        intro he
        exact hnodup.1 (he ▸ List.mem_map_of_mem _ hj)
      rw [hstep]
      exact mapFind_append_other _ _ _ _ hne (hfresh j (List.mem_cons_of_mem _ hj))

theorem mapFind_reloaded (env : Env) (infos : List KGlobalShortcutInfo)
    (hnodup : (infos.map KGlobalShortcutInfo.uniqueName).Nodup)
    (info : KGlobalShortcutInfo) (hmem : info ∈ infos) :
    mapFind (infos.map (fun i => (i.uniqueName, reloadedAction env i))) info.uniqueName
      = some (reloadedAction env info) := by
  induction infos with
  | nil => cases hmem
  | cons i rest ih =>
    rw [List.map_cons, List.nodup_cons] at hnodup
    rw [List.map_cons]
    rcases List.mem_cons.mp hmem with h | h
    · rw [h, mapFind_cons_eq]
    · have hne : info.uniqueName ≠ i.uniqueName := by
        intro he
        exact hnodup.1 (he ▸ List.mem_map_of_mem _ h)
      rw [mapFind_cons_ne _ _ _ _ hne]
      exact ih hnodup.2 h

theorem loadActionsFromAccel_list (env : Env) (st : Backend)
    (hnodup : (env.allShortcutInfos.map KGlobalShortcutInfo.uniqueName).Nodup) :
    (loadActionsFromAccel env st).m_shortcuts
      = env.allShortcutInfos.map (fun i => (i.uniqueName, reloadedAction env i)) := by
  unfold loadActionsFromAccel shortcutInfosByName
  rw [infosByName_fold [] _ hnodup (fun _ _ => rfl), List.nil_append]
  rw [loadActions_fold env { st with m_shortcuts := [] } _ hnodup (fun _ _ => rfl)]
  rfl

/-- C14. Whatever the action list held before, when the broker enumerates actions with
distinct unique names, after `loadActionsFromAccel` the action list holds exactly one
action per enumerated unique name and no other, and the action under a name has the key
sequences (and the name and text) the broker reports for that name now. -/
theorem loadActionsFromAccel_restores (env : Env) (st : Backend)
    (hnodup : (env.allShortcutInfos.map KGlobalShortcutInfo.uniqueName).Nodup) :
    ((loadActionsFromAccel env st).m_shortcuts.map Prod.fst).Nodup
      ∧ (∀ name, name ∈ (loadActionsFromAccel env st).m_shortcuts.map Prod.fst
          ↔ name ∈ env.allShortcutInfos.map KGlobalShortcutInfo.uniqueName)
      ∧ (∀ info ∈ env.allShortcutInfos,
          mapFind (loadActionsFromAccel env st).m_shortcuts info.uniqueName
            = some (reloadedAction env info))
      ∧ (∀ info ∈ env.allShortcutInfos, ∀ a,
          mapFind (loadActionsFromAccel env st).m_shortcuts info.uniqueName = some a →
            a.shortcuts = info.keys) := by
  have hl := loadActionsFromAccel_list env st hnodup
  have hkeys : (loadActionsFromAccel env st).m_shortcuts.map Prod.fst
      = env.allShortcutInfos.map KGlobalShortcutInfo.uniqueName := by
    rw [hl, List.map_map]
    rfl
  refine ⟨by rw [hkeys]; exact hnodup, fun name => by rw [hkeys], ?_, ?_⟩
  · intro info hmem
    rw [hl]
    exact mapFind_reloaded env _ hnodup info hmem
  · intro info hmem a ha
    rw [hl, mapFind_reloaded env _ hnodup info hmem] at ha
    cases ha
    rfl

theorem loadActionsFromAccel_restores_witness :
    mapFind (loadActionsFromAccel storedEnv
        (waylandBackend [])).m_shortcuts "a.ctrl+b"
      = some (reloadedAction storedEnv ⟨"a.ctrl+b", "Ctrl+B by app", [[0x42 ||| ControlModifier]]⟩) :=
  (loadActionsFromAccel_restores storedEnv (waylandBackend []) (by decide)).2.2.1
    ⟨"a.ctrl+b", "Ctrl+B by app", [[0x42 ||| ControlModifier]]⟩ (by decide)

end QHotkeyLinux

/-! # The accumulator -/

namespace UDCppTools

theorem wrapInt_add_left (a b : Int) : wrapInt (wrapInt a + b) = wrapInt (a + b) := by
  unfold wrapInt
  omega

theorem wrapInt_sub_left (a b : Int) : wrapInt (wrapInt a - b) = wrapInt (a - b) := by
  unfold wrapInt
  omega

theorem wrapInt_idem (a : Int) : wrapInt (wrapInt a) = wrapInt a := by
  unfold wrapInt
  omega

theorem wrapInt_of_range (a : Int) (h1 : -2147483648 ≤ a) (h2 : a < 2147483648) :
    wrapInt a = a := by
  unfold wrapInt
  omega

theorem run_cons (c : Calculator) (k : Call) (rest : List Call) :
    c.run (k :: rest) = (c.call k).1.run rest := rfl

/-- Every run keeps the member congruent to the start value plus the net sum. -/
theorem run_result (c : Calculator) (calls : List Call) :
    wrapInt (c.run calls).last_result_ = wrapInt (c.last_result_ + netSum calls) := by
  induction calls generalizing c with
  | nil => simp [Calculator.run, netSum]
  | cons k rest ih =>
    rw [run_cons, ih]
    cases k with
    | add value =>
      show wrapInt (wrapInt (c.last_result_ + value) + netSum rest) = _
      rw [wrapInt_add_left]
      simp only [netSum]
      congr 1
      omega
    | subtract value =>
      show wrapInt (wrapInt (c.last_result_ - value) + netSum rest) = _
      rw [wrapInt_add_left]
      simp only [netSum]
      congr 1
      omega
    | get_result =>
      show wrapInt (c.last_result_ + netSum rest) = _
      simp only [netSum]

/-- A run from a value in `int` range ends on a value in `int` range. -/
theorem run_wrapped (c : Calculator) (calls : List Call)
    (h : wrapInt c.last_result_ = c.last_result_) :
    wrapInt (c.run calls).last_result_ = (c.run calls).last_result_ := by
  induction calls generalizing c with
  | nil => exact h
  | cons k rest ih =>
    rw [run_cons]
    apply ih
    cases k with
    | add value => exact wrapInt_idem _
    | subtract value => exact wrapInt_idem _
    | get_result => exact h

/-- C16. A fresh `Calculator` reports 0; after any sequence of `add`, `subtract` and
`get_result` calls on a fresh object, `get_result` returns the sum of the added values
minus the sum of the subtracted values, wrapped into the 32-bit `int` range (so the exact
sum whenever that sum is in range); `add(v)` followed by `subtract(v)` gives back the
object as it was; and `get_result` leaves the object as it is. -/
theorem calculator_accumulates (calls : List Call) (v : Int) :
    (Calculator.create.call Call.get_result).2 = some 0
      ∧ ((Calculator.create.run calls).call Call.get_result).2 = some (wrapInt (netSum calls))
      ∧ (-2147483648 ≤ netSum calls → netSum calls < 2147483648 →
          ((Calculator.create.run calls).call Call.get_result).2 = some (netSum calls))
      ∧ ((Calculator.create.run calls).add v).subtract v = Calculator.create.run calls
      ∧ (∀ c : Calculator, (c.call Call.get_result).1 = c) := by
  have hw : wrapInt (Calculator.create.run calls).last_result_
      = (Calculator.create.run calls).last_result_ :=
    run_wrapped Calculator.create calls rfl
  have hr : (Calculator.create.run calls).last_result_ = wrapInt (netSum calls) := by
    rw [← hw, run_result]
    show wrapInt (0 + netSum calls) = _
    rw [Int.zero_add]
  refine ⟨rfl, ?_, ?_, ?_, fun _ => rfl⟩
  · show some (Calculator.create.run calls).last_result_ = _
    rw [hr]
  · intro h1 h2
    show some (Calculator.create.run calls).last_result_ = _
    rw [hr, wrapInt_of_range _ h1 h2]
  · show (⟨wrapInt (wrapInt ((Calculator.create.run calls).last_result_ + v) - v)⟩ : Calculator) = _
    rw [wrapInt_sub_left]
    have : (Calculator.create.run calls).last_result_ + v - v
        = (Calculator.create.run calls).last_result_ := by omega
    rw [this, hw]

end UDCppTools

/-! # The OS version predicates -/

namespace UDFrameless

/-- C19, evaluated on the code. `isWin7Only` tests for major version 7, so it is false on
Windows 7, whose version is 6.1, where `isWin8OrGreater` is false as well and the
"dwm-blur" branch is not refused without composition; and whenever `isWin7Only` is true
`isWin8OrGreater` is true too, as at version 7.0. -/
theorem isWin7Only_misses_windows7 :
    isWin7Only ⟨6, 1, 7601⟩ = false
      ∧ isWin8OrGreater ⟨6, 1, 7601⟩ = false
      ∧ dwmBlurRefused ⟨6, 1, 7601⟩ false true = false
      ∧ (isWin7Only ⟨7, 0, 0⟩ = true ∧ isWin8OrGreater ⟨7, 0, 0⟩ = true)
      ∧ (∀ rovi : RTL_OSVERSIONINFOW, isWin7Only rovi = true → isWin8OrGreater rovi = true) := by
  refine ⟨by decide, by decide, by decide, by decide, ?_⟩
  intro rovi h
  have h7 : rovi.dwMajorVersion = 7 := by simpa [isWin7Only] using h
  simp [isWin8OrGreater, h7]

end UDFrameless
